import Mathlib

/-! # Scene construction of `brasstower` (`src/brasstower/scene.h`)

A shallow embedding of the particle builders of `scene.h`
(`RigidBody::CreateRigidBox`, `Granulars::CreateGranularsBlock`,
`Fluid::CreateFluidBlock`, `Rope::CreateRope`, `Cloth::CreateCloth`), of the
`Plane` constructor and of the orientation of `Camera`, with theorems about
the particle lattices and constraint graphs, the plane basis and the camera
angles they produce.

Modelling conventions.

* `float` is an arbitrary field `K` (exact arithmetic); the theorems are stated
  for every such field, or for `ℝ` where a square root is needed.  The square
  root behind `glm::length` is a parameter `sqrt : K → K` of the builders, so
  that the builders stay executable (for instance over `ℚ`).
* `std::copysign` needs an order, so the plane lives over a linearly ordered
  field; `std::sin`, `std::cos` and `std::atan2` are parameters of the camera
  operations like the square root.
* `int` is `ℤ`.  Signed overflow is undefined behaviour in C++, so on every
  defined run the machine result is the mathematical one.
* `std::vector` is `List`, `push_back v` is `· ++ [v]`.
* `for (int i = a; i < b; i++)` is a left fold over `intRange a b`.
* The render mesh of a rigid body (`MeshGenerator::Cube`, `mesh.h`) is not part
  of the particle data and is left out.
* Division by zero (`numJoint = 1` in the rope, a rigid box without particles,
  `lookAt = pos` in the camera) gives `inf`/`NaN` in IEEE and `0` in a field;
  the theorems exclude these inputs by hypothesis, or speak of the shape of
  the result only, never of these values.
-/

namespace Brasstower

/-! ## glm vectors -/

/-- The type `glm::vec3` over the scalar type `K`. -/
@[ext]
structure Vec3 (K : Type) where
  x : K
  y : K
  z : K
  deriving DecidableEq, Repr

/-- The type `glm::vec2`; for `distanceParams` the components are `(distance, stiffness)`. -/
structure Vec2 (K : Type) where
  x : K
  y : K
  deriving DecidableEq, Repr

/-- The type `glm::int2`. -/
structure Int2 where
  x : Int
  y : Int
  deriving DecidableEq, Repr

/-- The types `glm::int3` and `glm::ivec3`. -/
structure Int3 where
  x : Int
  y : Int
  z : Int
  deriving DecidableEq, Repr

/-- The type `glm::int4`. -/
structure Int4 where
  x : Int
  y : Int
  z : Int
  w : Int
  deriving DecidableEq, Repr

namespace Vec3

variable {K : Type}

/-- The vector `glm::vec3(s)`: all components equal to `s`. -/
def splat (s : K) : Vec3 K := ⟨s, s, s⟩

/-- The vector `glm::vec3(i, j, k)` built from three `int`s. -/
def ofInts [IntCast K] (i j k : Int) : Vec3 K := ⟨(i : K), (j : K), (k : K)⟩

/-- Component-wise `operator+`. -/
def add [Add K] (a b : Vec3 K) : Vec3 K := ⟨a.x + b.x, a.y + b.y, a.z + b.z⟩

/-- Component-wise `operator-`. -/
def sub [Sub K] (a b : Vec3 K) : Vec3 K := ⟨a.x - b.x, a.y - b.y, a.z - b.z⟩

/-- Component-wise `operator*` of two vectors. -/
def mul [Mul K] (a b : Vec3 K) : Vec3 K := ⟨a.x * b.x, a.y * b.y, a.z * b.z⟩

/-- Scalar times vector, `s * v`. -/
def smul [Mul K] (s : K) (v : Vec3 K) : Vec3 K := ⟨s * v.x, s * v.y, s * v.z⟩

/-- Vector divided by a scalar, `v / s`. -/
def divS [Div K] (v : Vec3 K) (s : K) : Vec3 K := ⟨v.x / s, v.y / s, v.z / s⟩

/-- The dot product `glm::dot`. -/
def dot [Add K] [Mul K] (a b : Vec3 K) : K := a.x * b.x + a.y * b.y + a.z * b.z

/-- The function `glm::length`: the square root of `dot v v`. -/
def length [Add K] [Mul K] (sqrt : K → K) (v : Vec3 K) : K := sqrt (dot v v)

/-- The function `glm::distance`: the length of the difference. -/
def dist [Add K] [Sub K] [Mul K] (sqrt : K → K) (a b : Vec3 K) : K := length sqrt (sub a b)

/-- Sum of a list of vectors, starting from `glm::vec3(0)`. -/
def sum [Zero K] [Add K] (l : List (Vec3 K)) : Vec3 K := l.foldl add (splat 0)

end Vec3

/-- The values `a, a+1, ..., b-1` taken by `i` in `for (int i = a; i < b; i++)`. -/
def intRange (a b : Int) : List Int := (List.range (b - a).toNat).map (fun (k : Nat) => a + (k : Int))

/-! ## Rope -/

/-- The struct `Rope`. -/
structure Rope (K : Type) where
  positions : List (Vec3 K)
  distancePairs : List Int2
  distanceParams : List (Vec2 K)
  massPerParticle : K

/-- The function `Rope::CreateRope`. -/
def Rope.CreateRope {K : Type} [Field K] (sqrt : K → K)
    (startPosition endPosition : Vec3 K) (numJoint : Int) (massPerParticle : K) : Rope K :=
  let result : Rope K :=
    { positions := [], distancePairs := [], distanceParams := [],
      massPerParticle := massPerParticle }
  let diff := Vec3.sub endPosition startPosition
  let distance := Vec3.length sqrt diff / ((numJoint - 1 : Int) : K)
  let result := (intRange 0 numJoint).foldl (fun (r : Rope K) (i : Int) =>
    { r with positions := r.positions ++
        [Vec3.add startPosition (Vec3.smul ((i : K) / ((numJoint - 1 : Int) : K)) diff)] }) result
  let result := (intRange 0 (numJoint - 1)).foldl (fun (r : Rope K) (i : Int) =>
    { r with distancePairs := r.distancePairs ++ [⟨i, i + 1⟩],
             distanceParams := r.distanceParams ++ [⟨distance, 1⟩] }) result
  let result := (intRange 1 (numJoint - 1)).foldl (fun (r : Rope K) (i : Int) =>
    { r with distancePairs := r.distancePairs ++ [⟨i - 1, i + 1⟩],
             distanceParams := r.distanceParams ++ [⟨distance * 2, 1 / 10⟩] }) result
  result

/-! ## Box lattices: rigid bodies, granulars, fluids -/

/-- The struct `RigidBody` (particle data; `numParticles` is never written by the builder). -/
structure RigidBody (K : Type) where
  positions : List (Vec3 K)
  positions_CM_Origin : List (Vec3 K)
  CM : Vec3 K
  color : Vec3 K
  massPerParticle : K

/-- The function `RigidBody::CreateRigidBox`.  The triple loop carries the running sum `CM`
and the vector `positions`; then `CM` is divided by `positions.size()` and the second loop
pushes `positions[i] - CM`. -/
def RigidBody.CreateRigidBox {K : Type} [Field K] (color : Vec3 K) (dimension : Int3)
    (startPosition stepSize : Vec3 K) (massPerParticle : K) : RigidBody K :=
  let acc : Vec3 K × List (Vec3 K) :=
    (intRange 0 dimension.x).foldl (fun acc i =>
      (intRange 0 dimension.y).foldl (fun acc j =>
        (intRange 0 dimension.z).foldl (fun acc k =>
          let position := Vec3.add startPosition (Vec3.mul stepSize (Vec3.ofInts i j k))
          (Vec3.add acc.1 position, acc.2 ++ [position])) acc) acc) (Vec3.splat 0, [])
  let positions := acc.2
  let CM := Vec3.divS acc.1 ((positions.length : Nat) : K)
  let positions_CM_Origin := (List.range positions.length).foldl (fun out i =>
    out ++ [Vec3.sub (positions.getD i (Vec3.splat 0)) CM]) []
  { positions := positions, positions_CM_Origin := positions_CM_Origin, CM := CM,
    color := color, massPerParticle := massPerParticle }

/-- The struct `Granulars`. -/
structure Granulars (K : Type) where
  positions : List (Vec3 K)
  massPerParticle : K

/-- The function `Granulars::CreateGranularsBlock`. -/
def Granulars.CreateGranularsBlock {K : Type} [Field K] (dimension : Int3)
    (startPosition stepSize : Vec3 K) (massPerParticle : K) : Granulars K :=
  let positions : List (Vec3 K) :=
    (intRange 0 dimension.x).foldl (fun acc i =>
      (intRange 0 dimension.y).foldl (fun acc j =>
        (intRange 0 dimension.z).foldl (fun acc k =>
          let position := Vec3.add startPosition (Vec3.mul stepSize (Vec3.ofInts i j k))
          acc ++ [position]) acc) acc) []
  { positions := positions, massPerParticle := massPerParticle }

/-- The struct `Fluid`. -/
structure Fluid (K : Type) where
  positions : List (Vec3 K)
  massPerParticle : K

/-- The function `Fluid::CreateFluidBlock`. -/
def Fluid.CreateFluidBlock {K : Type} [Field K] (dimension : Int3)
    (startPosition stepSize : Vec3 K) (massPerParticle : K) : Fluid K :=
  let positions : List (Vec3 K) :=
    (intRange 0 dimension.x).foldl (fun acc i =>
      (intRange 0 dimension.y).foldl (fun acc j =>
        (intRange 0 dimension.z).foldl (fun acc k =>
          let position := Vec3.add startPosition (Vec3.mul stepSize (Vec3.ofInts i j k))
          acc ++ [position]) acc) acc) []
  { positions := positions, massPerParticle := massPerParticle }

/-! ## Cloth -/

/-- The struct `Cloth`. -/
structure Cloth (K : Type) where
  positions : List (Vec3 K)
  distancePairs : List Int2
  distanceParams : List (Vec2 K)
  bendings : List Int4
  faces : List Int3
  immovables : List Int
  massPerParticle : K

/-- The two statements `distancePairs.push_back(p); distanceParams.push_back(q);`. -/
def Cloth.pushDistance {K : Type} (c : Cloth K) (p : Int2) (q : Vec2 K) : Cloth K :=
  { c with distancePairs := c.distancePairs ++ [p], distanceParams := c.distanceParams ++ [q] }

/-- The body of the double loop of `Cloth::CreateCloth` at loop variables `x`, `y`. -/
def Cloth.loopBody {K : Type} [Field K] (startPosition offsetX offsetY : Vec3 K)
    (numJointX numJointY : Int) (lengthX lengthY lengthDiag stiffness stiffness2 : K)
    (c : Cloth K) (x y : Int) : Cloth K :=
  -- positions
  let c := { c with positions := c.positions ++
    [Vec3.add (Vec3.add startPosition (Vec3.smul (y : K) offsetX)) (Vec3.smul (x : K) offsetY)] }
  let p1 := y * numJointX + x
  let p2 := y * numJointX + x + 1
  let p3 := (y + 1) * numJointX + x
  let p4 := (y + 1) * numJointX + x + 1
  -- face
  let c := if x < numJointX - 1 ∧ y < numJointY - 1 then
      { c with faces := (c.faces ++ [⟨p1, p2, p3⟩]) ++ [⟨p2, p3, p4⟩] }
    else c
  -- horizontal
  let c := if x < numJointX - 1 then c.pushDistance ⟨p1, p2⟩ ⟨lengthX, stiffness⟩ else c
  -- vertical
  let c := if y < numJointY - 1 then c.pushDistance ⟨p1, p3⟩ ⟨lengthY, stiffness⟩ else c
  -- diagonal1
  let c := if x < numJointX - 1 ∧ y < numJointY - 1 then
      (c.pushDistance ⟨p1, p4⟩ ⟨lengthDiag, stiffness⟩).pushDistance ⟨p2, p3⟩ ⟨lengthDiag, stiffness⟩
    else c
  -- hack bending: `q a b` is the array entry `q[a][b]`, filled as
  -- `q[i + 1][j + 1] = (y + i) * numJointX + x + j` for `i, j = -1, 0, 1`
  let q : Int → Int → Int := fun a b => (y + (a - 1)) * numJointX + x + (b - 1)
  let c := if 0 < x ∧ 0 < y ∧ x < numJointX - 1 ∧ y < numJointY - 1 then
      let c := (intRange 0 3).foldl (fun (c : Cloth K) (i : Int) =>
        c.pushDistance ⟨q i 0, q i 2⟩ ⟨lengthX * 2, stiffness2⟩) c
      (intRange 0 3).foldl (fun (c : Cloth K) (i : Int) =>
        c.pushDistance ⟨q 0 i, q 2 i⟩ ⟨lengthY * 2, stiffness2⟩) c
    else c
  c

/-- The function `Cloth::CreateCloth`. -/
def Cloth.CreateCloth {K : Type} [Field K] (sqrt : K → K)
    (startPosition offsetX offsetY : Vec3 K) (numJointX numJointY : Int) (massPerParticle : K)
    (firstCorner secondCorner thirdCorner fourthCorner : Bool) : Cloth K :=
  let stiffness : K := 2 / 10
  let stiffness2 : K := 1 / 10
  let result : Cloth K :=
    { positions := [], distancePairs := [], distanceParams := [], bendings := [], faces := [],
      immovables := [], massPerParticle := massPerParticle }
  let lengthX := Vec3.length sqrt offsetX
  let lengthY := Vec3.length sqrt offsetY
  let lengthDiag := Vec3.length sqrt (Vec3.add offsetX offsetY)
  let result := if firstCorner then
    { result with immovables := result.immovables ++ [0] } else result
  let result := if secondCorner then
    { result with immovables := result.immovables ++ [numJointX - 1] } else result
  let result := if thirdCorner then
    { result with immovables := result.immovables ++ [numJointX * (numJointY - 1)] } else result
  let result := if fourthCorner then
    { result with immovables := result.immovables ++ [numJointX * numJointY - 1] } else result
  (intRange 0 numJointX).foldl (fun result x =>
    (intRange 0 numJointY).foldl (fun result y =>
      Cloth.loopBody startPosition offsetX offsetY numJointX numJointY
        lengthX lengthY lengthDiag stiffness stiffness2 result x y) result) result

/-! ### The cloth loop body, block by block

The lists below are what one execution of the loop body appends to `faces` and to
`distancePairs` / `distanceParams` (kept together as pairs); `Cloth.loopBody_eq` proves that
`Cloth.loopBody` appends exactly these. -/

/-- The faces pushed at `(x, y)`: `(p1, p2, p3)` and `(p2, p3, p4)` when the cell exists. -/
def Cloth.facesAt (numJointX numJointY x y : Int) : List Int3 :=
  if x < numJointX - 1 ∧ y < numJointY - 1 then
    [⟨y * numJointX + x, y * numJointX + x + 1, (y + 1) * numJointX + x⟩,
     ⟨y * numJointX + x + 1, (y + 1) * numJointX + x, (y + 1) * numJointX + x + 1⟩]
  else []

/-- The horizontal, vertical and diagonal constraints pushed at `(x, y)`. -/
def Cloth.structuralAt {K : Type} (numJointX numJointY : Int)
    (lengthX lengthY lengthDiag stiffness : K) (x y : Int) : List (Int2 × Vec2 K) :=
  (if x < numJointX - 1 then
      [(⟨y * numJointX + x, y * numJointX + x + 1⟩, ⟨lengthX, stiffness⟩)] else []) ++
  (if y < numJointY - 1 then
      [(⟨y * numJointX + x, (y + 1) * numJointX + x⟩, ⟨lengthY, stiffness⟩)] else []) ++
  (if x < numJointX - 1 ∧ y < numJointY - 1 then
      [(⟨y * numJointX + x, (y + 1) * numJointX + x + 1⟩, ⟨lengthDiag, stiffness⟩),
       (⟨y * numJointX + x + 1, (y + 1) * numJointX + x⟩, ⟨lengthDiag, stiffness⟩)] else [])

/-- The six constraints of the "hack bending" block pushed at an interior node `(x, y)`. -/
def Cloth.bendingAt {K : Type} [Mul K] [OfNat K 2] (numJointX numJointY : Int)
    (lengthX lengthY stiffness2 : K) (x y : Int) : List (Int2 × Vec2 K) :=
  if 0 < x ∧ 0 < y ∧ x < numJointX - 1 ∧ y < numJointY - 1 then
    [(⟨(y - 1) * numJointX + x - 1, (y - 1) * numJointX + x + 1⟩, ⟨lengthX * 2, stiffness2⟩),
     (⟨y * numJointX + x - 1, y * numJointX + x + 1⟩, ⟨lengthX * 2, stiffness2⟩),
     (⟨(y + 1) * numJointX + x - 1, (y + 1) * numJointX + x + 1⟩, ⟨lengthX * 2, stiffness2⟩),
     (⟨(y - 1) * numJointX + x - 1, (y + 1) * numJointX + x - 1⟩, ⟨lengthY * 2, stiffness2⟩),
     (⟨(y - 1) * numJointX + x, (y + 1) * numJointX + x⟩, ⟨lengthY * 2, stiffness2⟩),
     (⟨(y - 1) * numJointX + x + 1, (y + 1) * numJointX + x + 1⟩, ⟨lengthY * 2, stiffness2⟩)]
  else []

/-! ## Plane -/

/-- The type `glm::vec4`. -/
@[ext]
structure Vec4 (K : Type) where
  x : K
  y : K
  z : K
  w : K
  deriving DecidableEq, Repr

/-- The type `glm::mat4`, stored by columns: the sixteen-scalar constructor of glm fills
column 0 with its first four arguments, column 1 with the next four, and so on. -/
@[ext]
structure Mat4 (K : Type) where
  c0 : Vec4 K
  c1 : Vec4 K
  c2 : Vec4 K
  c3 : Vec4 K
  deriving DecidableEq, Repr

/-- The cross product `glm::cross`. -/
def Vec3.cross {K : Type} [Mul K] [Sub K] (a b : Vec3 K) : Vec3 K :=
  ⟨a.y * b.z - b.y * a.z, a.z * b.x - b.z * a.x, a.x * b.y - b.x * a.y⟩

/-- Unary minus of a vector. -/
def Vec3.neg {K : Type} [Neg K] (a : Vec3 K) : Vec3 K := ⟨-a.x, -a.y, -a.z⟩

/-- The determinant of the upper-left `3 × 3` block of a matrix, expanded along its first
column. -/
def Mat4.det3 {K : Type} [Add K] [Sub K] [Mul K] (m : Mat4 K) : K :=
  m.c0.x * (m.c1.y * m.c2.z - m.c2.y * m.c1.z)
    - m.c0.y * (m.c1.x * m.c2.z - m.c2.x * m.c1.z)
    + m.c0.z * (m.c1.x * m.c2.y - m.c2.x * m.c1.y)

/-- The function `std::copysign(magnitude, sgn)` in exact arithmetic: the absolute value of
`magnitude` with the sign of `sgn`, a zero `sgn` counting as positive. -/
def copysign {K : Type} [LinearOrderedField K] (magnitude sgn : K) : K :=
  if sgn < 0 then -|magnitude| else |magnitude|

/-- The struct `Plane`. -/
structure Plane (K : Type) where
  origin : Vec3 K
  normal : Vec3 K
  modelMatrix : Mat4 K

/-- The local vectors `(xBasis, yBasis, zBasis)` computed by the `Plane` constructor from
`normal`. -/
def Plane.bases {K : Type} [LinearOrderedField K] (normal : Vec3 K) :
    Vec3 K × Vec3 K × Vec3 K :=
  let zBasis := normal
  let sign := copysign (1 : K) zBasis.z
  let a := -1 / (sign + zBasis.z)
  let b := zBasis.x * zBasis.y * a
  let xBasis : Vec3 K := ⟨1 + sign * zBasis.x * zBasis.x * a, sign * b, -sign * zBasis.x⟩
  let yBasis : Vec3 K := ⟨b, sign + zBasis.y * zBasis.y * a, -zBasis.y⟩
  (xBasis, yBasis, zBasis)

/-- The constructor `Plane::Plane(origin, normal)`. -/
def Plane.new {K : Type} [LinearOrderedField K] (origin normal : Vec3 K) : Plane K :=
  let xBasis := (Plane.bases normal).1
  let yBasis := (Plane.bases normal).2.1
  let zBasis := (Plane.bases normal).2.2
  { origin := origin, normal := normal,
    modelMatrix :=
      { c0 := ⟨yBasis.x, yBasis.y, yBasis.z, 0⟩,
        c1 := ⟨zBasis.x, zBasis.y, zBasis.z, 0⟩,
        c2 := ⟨xBasis.x, xBasis.y, xBasis.z, 0⟩,
        c3 := ⟨origin.x, origin.y, origin.z, 1⟩ } }

/-! ## Camera

The functions `std::sin`, `std::cos`, `std::sqrt` and `std::atan2` are parameters of the camera
operations; the theorems take the real sine, cosine and square root, and for `atan2 y x` the
argument of the complex number `x + y i`, which lies in `(-π, π]` and is `0` at the origin. -/

/-- The struct `Camera`. -/
structure Camera (K : Type) where
  fovY : K
  aspectRatio : K
  pos : Vec3 K
  thetaPhi : Vec2 K
  dir : Vec3 K
  up : Vec3 K

/-- The function `glm::normalize`: `v * inversesqrt(dot(v, v))`. -/
def Vec3.normalize {K : Type} [Field K] (sqrt : K → K) (v : Vec3 K) : Vec3 K :=
  Vec3.smul (1 / sqrt (Vec3.dot v v)) v

/-- The function `Camera::SphericalToWorld`. -/
def Camera.SphericalToWorld {K : Type} [Mul K] (sin cos : K → K) (thetaPhi : Vec2 K) : Vec3 K :=
  let phi := thetaPhi.x
  let theta := thetaPhi.y
  let sinphi := sin phi
  let cosphi := cos phi
  let sintheta := sin theta
  let costheta := cos theta
  ⟨costheta * sinphi, cosphi, sintheta * sinphi⟩

/-- The function `Camera::WorldToSpherical`. -/
def Camera.WorldToSpherical {K : Type} [Add K] [Mul K] (sqrt : K → K) (atan2 : K → K → K)
    (pos : Vec3 K) : Vec2 K :=
  let phi := atan2 pos.z pos.x
  let numerator := sqrt (pos.x * pos.x + pos.z * pos.z)
  let theta := atan2 numerator pos.y
  ⟨theta, phi⟩

/-- The constructor `Camera::Camera(pos, lookAt, fovy, aspectRatio)`. -/
def Camera.new {K : Type} [Field K] (sqrt : K → K) (atan2 : K → K → K)
    (pos lookAt : Vec3 K) (fovy aspectRatio : K) : Camera K :=
  { pos := pos,
    dir := Vec3.normalize sqrt (Vec3.sub lookAt pos),
    thetaPhi := Camera.WorldToSpherical sqrt atan2 (Vec3.normalize sqrt (Vec3.sub lookAt pos)),
    up := ⟨0, 1, 0⟩,
    fovY := fovy,
    aspectRatio := aspectRatio }

/-- The method `Camera::rotate`. -/
def Camera.rotate {K : Type} [Add K] [Mul K] (sin cos : K → K) (c : Camera K)
    (rotation : Vec2 K) : Camera K :=
  let thetaPhi : Vec2 K := ⟨c.thetaPhi.x + rotation.x, c.thetaPhi.y + rotation.y⟩
  { c with thetaPhi := thetaPhi, dir := Camera.SphericalToWorld sin cos thetaPhi }

/-! ## Loop lemmas -/

theorem intRange_length (a b : Int) : (intRange a b).length = (b - a).toNat := by
  simp [intRange]

theorem intRange_getElem? (a b : Int) (k : Nat) :
    (intRange a b)[k]? = if k < (b - a).toNat then some (a + (k : Int)) else none := by
  unfold intRange
  by_cases h : k < (b - a).toNat
  · simp [h, List.getElem?_range h]
  · simp [h, List.getElem?_eq_none (l := List.range (b - a).toNat) (by simpa using h)]

theorem intRange_zero_eq (n : Int) :
    intRange 0 n = (List.range n.toNat).map (fun (k : Nat) => (k : Int)) := by
  simp [intRange]

theorem mem_intRange {a b i : Int} : i ∈ intRange a b ↔ a ≤ i ∧ i < b := by
  unfold intRange
  simp only [List.mem_map, List.mem_range]
  constructor
  · rintro ⟨k, hk, rfl⟩
    omega
  · rintro ⟨h1, h2⟩
    exact ⟨(i - a).toNat, by omega, by omega⟩

/-- A loop that only pushes one value per iteration builds `init ++ map`. -/
theorem foldl_push_eq {α β : Type} (f : α → β) (l : List α) (init : List β) :
    l.foldl (fun acc i => acc ++ [f i]) init = init ++ l.map f := by
  induction l generalizing init with
  | nil => simp
  | cons a t ih => simp [ih]

/-- A loop that appends a block per iteration builds `init ++ flatMap`. -/
theorem foldl_append_eq {α β : Type} (f : α → List β) (l : List α) (init : List β) :
    l.foldl (fun acc i => acc ++ f i) init = init ++ l.flatMap f := by
  induction l generalizing init with
  | nil => simp
  | cons a t ih => simp [ih]

/-- Length of the concatenation of `n` blocks of the same length `m`. -/
theorem length_flatMap_range_uniform {β : Type} (m : Nat) (f : Nat → List β)
    (hf : ∀ i, (f i).length = m) (n : Nat) : ((List.range n).flatMap f).length = n * m := by
  induction n with
  | zero => simp
  | succ n ih =>
    rw [List.range_succ, List.flatMap_append, List.length_append, ih, List.flatMap_singleton, hf]
    ring

/-- Entry `i * m + j` of the concatenation of blocks of length `m` is entry `j` of block `i`. -/
theorem getElem?_flatMap_range_uniform {β : Type} (m : Nat) (f : Nat → List β)
    (hf : ∀ i, (f i).length = m) (n i j : Nat) (hi : i < n) (hj : j < m) :
    ((List.range n).flatMap f)[i * m + j]? = (f i)[j]? := by
  induction n with
  | zero => omega
  | succ n ih =>
    rw [List.range_succ, List.flatMap_append, List.flatMap_singleton]
    have hlen := length_flatMap_range_uniform m f hf n
    by_cases hin : i < n
    · have hlt : i * m + j < ((List.range n).flatMap f).length := by
        rw [hlen]
        calc i * m + j < i * m + m := by omega
          _ = (i + 1) * m := by ring
          _ ≤ n * m := Nat.mul_le_mul_right m hin
      rw [List.getElem?_append_left hlt]
      exact ih hin
    · have hieq : i = n := by omega
      subst hieq
      rw [List.getElem?_append_right (by rw [hlen]; omega), hlen]
      congr 1
      omega

/-- The loop version of `length_flatMap_range_uniform`. -/
theorem length_flatMap_intRange {β : Type} (m : Nat) (f : Int → List β)
    (hf : ∀ i, (f i).length = m) (n : Int) : ((intRange 0 n).flatMap f).length = n.toNat * m := by
  rw [intRange_zero_eq, List.flatMap_map]
  exact length_flatMap_range_uniform m _ (fun i => hf _) _

/-- The loop version of `getElem?_flatMap_range_uniform`. -/
theorem getElem?_flatMap_intRange {β : Type} (m : Nat) (f : Int → List β)
    (hf : ∀ i, (f i).length = m) (n : Int) (i j : Nat) (hi : (i : Int) < n) (hj : j < m) :
    ((intRange 0 n).flatMap f)[i * m + j]? = (f (i : Int))[j]? := by
  rw [intRange_zero_eq, List.flatMap_map]
  exact getElem?_flatMap_range_uniform m _ (fun i => hf _) _ i j (by omega) hj

/-- Two consecutive loops over `[a, b)` and `[b, c)` visit `[a, c)`. -/
theorem intRange_append (a b c : Int) (hab : a ≤ b) (hbc : b ≤ c) :
    intRange a b ++ intRange b c = intRange a c := by
  unfold intRange
  have e : (c - a).toNat = (b - a).toNat + (c - b).toNat := by omega
  rw [e, List.range_add, List.map_append, List.map_map]
  congr 1
  apply List.map_congr_left
  intro k _
  simp only [Function.comp_apply]
  push_cast
  omega

/-- Number of loop values `0 ≤ i < n` that fall in `[a, b)`, when `0 ≤ a ≤ b ≤ n`. -/
theorem countP_intRange_Ico (n a b : Int) (ha : 0 ≤ a) (hab : a ≤ b) (hbn : b ≤ n) :
    (intRange 0 n).countP (fun i => decide (a ≤ i ∧ i < b)) = (b - a).toNat := by
  rw [← intRange_append 0 a n ha (by omega), ← intRange_append a b n hab hbn,
    List.countP_append, List.countP_append]
  have h1 : (intRange 0 a).countP (fun i => decide (a ≤ i ∧ i < b)) = 0 := by
    rw [List.countP_eq_zero]
    intro i hi
    rw [mem_intRange] at hi
    simp only [decide_eq_true_eq]
    omega
  have h2 : (intRange a b).countP (fun i => decide (a ≤ i ∧ i < b)) = (intRange a b).length := by
    rw [List.countP_eq_length]
    intro i hi
    rw [mem_intRange] at hi
    simp only [decide_eq_true_eq]
    omega
  have h3 : (intRange b n).countP (fun i => decide (a ≤ i ∧ i < b)) = 0 := by
    rw [List.countP_eq_zero]
    intro i hi
    rw [mem_intRange] at hi
    simp only [decide_eq_true_eq]
    omega
  rw [h1, h2, h3, intRange_length]
  omega

/-- Length of a double loop that appends a block of `c` entries exactly at the iterations
`(x, y)` with `P x` and `Q y`. -/
theorem length_flatMap_guard {β : Type} (L M : List Int) (P Q : Int → Prop)
    [DecidablePred P] [DecidablePred Q] (blk : Int → Int → List β) (c : Nat)
    (hc : ∀ x y, (blk x y).length = c) :
    (L.flatMap (fun x => M.flatMap (fun y => if P x ∧ Q y then blk x y else []))).length
      = L.countP (fun x => decide (P x)) * (M.countP (fun y => decide (Q y)) * c) := by
  have inner : ∀ x, (M.flatMap (fun y => if P x ∧ Q y then blk x y else [])).length
      = if P x then M.countP (fun y => decide (Q y)) * c else 0 := by
    intro x
    induction M with
    | nil => simp
    | cons b t ih =>
      rw [List.flatMap_cons, List.length_append, ih, List.countP_cons]
      by_cases hp : P x <;> by_cases hq : Q b <;> simp [hp, hq, hc, Nat.add_mul, Nat.add_comm]
  induction L with
  | nil => simp
  | cons a t ih =>
    rw [List.flatMap_cons, List.length_append, ih, inner, List.countP_cons]
    by_cases hp : P a <;> simp [hp, Nat.add_mul, Nat.add_comm]

/-- Length of a double loop whose body appends two blocks. -/
theorem length_flatMap_append2 {β : Type} (L M : List Int) (f g : Int → Int → List β) :
    (L.flatMap (fun x => M.flatMap (fun y => f x y ++ g x y))).length
      = (L.flatMap (fun x => M.flatMap (fun y => f x y))).length
        + (L.flatMap (fun x => M.flatMap (fun y => g x y))).length := by
  have inner : ∀ x, (M.flatMap (fun y => f x y ++ g x y)).length
      = (M.flatMap (fun y => f x y)).length + (M.flatMap (fun y => g x y)).length := by
    intro x
    induction M with
    | nil => simp
    | cons b t ih =>
      simp only [List.flatMap_cons, List.length_append, ih]
      omega
  induction L with
  | nil => simp
  | cons a t ih =>
    simp only [List.flatMap_cons, List.length_append, ih, inner]
    omega

/-! ## Rope: closed forms -/

section RopeLemmas

variable {K : Type}

theorem Rope.rope_foldl_positions (f : Int → Vec3 K) (l : List Int) (r : Rope K) :
    l.foldl (fun (r : Rope K) i => { r with positions := r.positions ++ [f i] }) r
      = { r with positions := r.positions ++ l.map f } := by
  induction l generalizing r with
  | nil => simp
  | cons a t ih => simp [ih]

theorem Rope.rope_foldl_distances (f : Int → Int2) (g : Int → Vec2 K) (l : List Int) (r : Rope K) :
    l.foldl (fun (r : Rope K) i =>
        { r with distancePairs := r.distancePairs ++ [f i],
                 distanceParams := r.distanceParams ++ [g i] }) r
      = { r with distancePairs := r.distancePairs ++ l.map f,
                 distanceParams := r.distanceParams ++ l.map g } := by
  induction l generalizing r with
  | nil => simp
  | cons a t ih => simp [ih]

/-- The rope builder in closed form. -/
theorem Rope.CreateRope_eq [Field K] (sqrt : K → K) (s e : Vec3 K) (n : Int) (m : K) :
    Rope.CreateRope sqrt s e n m =
      { positions := (intRange 0 n).map (fun (i : Int) =>
          Vec3.add s (Vec3.smul ((i : K) / ((n - 1 : Int) : K)) (Vec3.sub e s))),
        distancePairs := (intRange 0 (n - 1)).map (fun i => (⟨i, i + 1⟩ : Int2)) ++
          (intRange 1 (n - 1)).map (fun i => (⟨i - 1, i + 1⟩ : Int2)),
        distanceParams :=
          (intRange 0 (n - 1)).map (fun _ =>
            (⟨Vec3.length sqrt (Vec3.sub e s) / ((n - 1 : Int) : K), 1⟩ : Vec2 K)) ++
          (intRange 1 (n - 1)).map (fun _ =>
            (⟨Vec3.length sqrt (Vec3.sub e s) / ((n - 1 : Int) : K) * 2, 1 / 10⟩ : Vec2 K)),
        massPerParticle := m } := by
  unfold Rope.CreateRope
  simp only [Rope.rope_foldl_positions, Rope.rope_foldl_distances, List.nil_append]

theorem Rope.rope_positions_getElem? [Field K] (sqrt : K → K) (s e : Vec3 K) (n : Int) (m : K)
    (j : Nat) (hj : (j : Int) < n) :
    (Rope.CreateRope sqrt s e n m).positions[j]?
      = some (Vec3.add s (Vec3.smul (((j : Int) : K) / ((n - 1 : Int) : K)) (Vec3.sub e s))) := by
  rw [Rope.CreateRope_eq]
  have hlt : j < (n - 0).toNat := by omega
  simp only [List.getElem?_map, intRange_getElem?, if_pos hlt, Option.map_some', zero_add]

theorem Rope.rope_distancePairs_getElem? [Field K] (sqrt : K → K) (s e : Vec3 K) (n : Int) (m : K)
    (k : Nat) :
    (Rope.CreateRope sqrt s e n m).distancePairs[k]? =
      if (k : Int) < n - 1 then some ⟨k, k + 1⟩
      else if (k : Int) < 2 * n - 3 then some ⟨k - (n - 1), k - (n - 1) + 2⟩ else none := by
  rw [Rope.CreateRope_eq]
  simp only [List.getElem?_append, List.length_map, intRange_length, List.getElem?_map,
    intRange_getElem?]
  split_ifs <;> first
    | omega
    | rfl
    | (simp only [Option.map_some', Option.some.injEq, Int2.mk.injEq, zero_add]
       constructor <;> omega)
    | (simp only [Option.map_some', Option.some.injEq, Int2.mk.injEq, zero_add, and_self])

theorem Rope.rope_distanceParams_getElem? [Field K] (sqrt : K → K) (s e : Vec3 K) (n : Int) (m : K)
    (k : Nat) :
    (Rope.CreateRope sqrt s e n m).distanceParams[k]? =
      if (k : Int) < n - 1 then
        some ⟨Vec3.length sqrt (Vec3.sub e s) / ((n - 1 : Int) : K), 1⟩
      else if (k : Int) < 2 * n - 3 then
        some ⟨Vec3.length sqrt (Vec3.sub e s) / ((n - 1 : Int) : K) * 2, 1 / 10⟩
      else none := by
  rw [Rope.CreateRope_eq]
  simp only [List.getElem?_append, List.length_map, intRange_length, List.getElem?_map,
    intRange_getElem?]
  split_ifs <;> first
    | omega
    | rfl

/-- Distance of two points of the line `s + t * d` over the reals. -/
theorem Vec3.dist_on_line (s d : Vec3 ℝ) (t u : ℝ) :
    Vec3.dist Real.sqrt (Vec3.add s (Vec3.smul t d)) (Vec3.add s (Vec3.smul u d))
      = |t - u| * Vec3.length Real.sqrt d := by
  have h : Vec3.dot (Vec3.sub (Vec3.add s (Vec3.smul t d)) (Vec3.add s (Vec3.smul u d)))
      (Vec3.sub (Vec3.add s (Vec3.smul t d)) (Vec3.add s (Vec3.smul u d)))
      = (t - u) ^ 2 * Vec3.dot d d := by
    simp only [Vec3.dot, Vec3.sub, Vec3.add, Vec3.smul]
    ring
  unfold Vec3.dist Vec3.length
  rw [h, Real.sqrt_mul (sq_nonneg _), Real.sqrt_sq_eq_abs]

/-- Absolute value of the parameter gap of two rope joints `i` and `j = i + c`. -/
theorem Rope.abs_param_gap (n : Int) (h : 2 ≤ n) (i j : Int) (c : ℝ) (hc : 0 ≤ c)
    (hij : (j : ℝ) = (i : ℝ) + c) :
    |((i : ℝ) / ((n - 1 : Int) : ℝ)) - ((j : ℝ) / ((n - 1 : Int) : ℝ))|
      = c / ((n - 1 : Int) : ℝ) := by
  have hn : (0 : ℝ) < ((n - 1 : Int) : ℝ) := by exact_mod_cast (by omega : (0 : Int) < n - 1)
  have : ((i : ℝ) / ((n - 1 : Int) : ℝ)) - ((j : ℝ) / ((n - 1 : Int) : ℝ))
      = -(c / ((n - 1 : Int) : ℝ)) := by
    rw [hij]; ring
  rw [this, abs_neg, abs_of_nonneg (div_nonneg hc hn.le)]

/-- **C2.** For a rope with `numJoint ≥ 2` over the reals, every distance constraint `k` stores
in `distanceParams[k].x` the Euclidean distance of the two particles named by
`distancePairs[k]`: both indices are valid positions, and the stored rest distance equals
`glm::distance` of these positions (adjacent pairs and skip-one pairs alike). -/
theorem Rope.CreateRope_rest_distance (startPosition endPosition : Vec3 ℝ) (numJoint : Int)
    (massPerParticle : ℝ) (h : 2 ≤ numJoint) :
    ∀ (k : Nat) (p : Int2),
      (Rope.CreateRope Real.sqrt startPosition endPosition numJoint massPerParticle).distancePairs[k]?
        = some p →
      ∃ (q : Vec2 ℝ) (a b : Vec3 ℝ),
        (Rope.CreateRope Real.sqrt startPosition endPosition numJoint massPerParticle).distanceParams[k]?
          = some q ∧
        0 ≤ p.x ∧ 0 ≤ p.y ∧
        (Rope.CreateRope Real.sqrt startPosition endPosition numJoint massPerParticle).positions[p.x.toNat]?
          = some a ∧
        (Rope.CreateRope Real.sqrt startPosition endPosition numJoint massPerParticle).positions[p.y.toNat]?
          = some b ∧
        q.x = Vec3.dist Real.sqrt a b := by
  intro k p hp
  rw [Rope.rope_distancePairs_getElem?] at hp
  split_ifs at hp with h1 h2
  · obtain rfl := Option.some.inj hp
    refine ⟨⟨Vec3.length Real.sqrt (Vec3.sub endPosition startPosition)
        / ((numJoint - 1 : Int) : ℝ), 1⟩,
      Vec3.add startPosition (Vec3.smul ((((k : Nat) : Int) : ℝ) / ((numJoint - 1 : Int) : ℝ))
        (Vec3.sub endPosition startPosition)),
      Vec3.add startPosition (Vec3.smul ((((k + 1 : Nat) : Int) : ℝ) / ((numJoint - 1 : Int) : ℝ))
        (Vec3.sub endPosition startPosition)), ?_, ?_, ?_, ?_, ?_, ?_⟩
    · rw [Rope.rope_distanceParams_getElem?, if_pos h1]
    · show (0 : Int) ≤ (k : Int)
      omega
    · show (0 : Int) ≤ (k : Int) + 1
      omega
    · show _[((k : Int)).toNat]? = _
      rw [Int.toNat_natCast]
      exact Rope.rope_positions_getElem? _ _ _ _ _ k (by omega)
    · show _[((k : Int) + 1).toNat]? = _
      have : ((k : Int) + 1).toNat = k + 1 := by omega
      rw [this]
      exact Rope.rope_positions_getElem? _ _ _ _ _ (k + 1) (by push_cast; omega)
    · rw [Vec3.dist_on_line, Rope.abs_param_gap numJoint h _ _ 1 zero_le_one (by push_cast; ring)]
      show _ / _ = _
      ring
  · obtain rfl := Option.some.inj hp
    have hx : ((k : Int) - (numJoint - 1)).toNat = k - (numJoint - 1).toNat := by omega
    have hy : ((k : Int) - (numJoint - 1) + 2).toNat = k - (numJoint - 1).toNat + 2 := by omega
    refine ⟨⟨Vec3.length Real.sqrt (Vec3.sub endPosition startPosition)
        / ((numJoint - 1 : Int) : ℝ) * 2, 1 / 10⟩,
      Vec3.add startPosition (Vec3.smul ((((k - (numJoint - 1).toNat : Nat) : Int) : ℝ)
        / ((numJoint - 1 : Int) : ℝ)) (Vec3.sub endPosition startPosition)),
      Vec3.add startPosition (Vec3.smul ((((k - (numJoint - 1).toNat + 2 : Nat) : Int) : ℝ)
        / ((numJoint - 1 : Int) : ℝ)) (Vec3.sub endPosition startPosition)),
      ?_, ?_, ?_, ?_, ?_, ?_⟩
    · rw [Rope.rope_distanceParams_getElem?, if_neg h1, if_pos h2]
    · show (0 : Int) ≤ (k : Int) - (numJoint - 1)
      omega
    · show (0 : Int) ≤ (k : Int) - (numJoint - 1) + 2
      omega
    · show _[((k : Int) - (numJoint - 1)).toNat]? = _
      rw [hx]
      exact Rope.rope_positions_getElem? _ _ _ _ _ _ (by omega)
    · show _[((k : Int) - (numJoint - 1) + 2).toNat]? = _
      rw [hy]
      exact Rope.rope_positions_getElem? _ _ _ _ _ _ (by omega)
    · rw [Vec3.dist_on_line, Rope.abs_param_gap numJoint h _ _ 2 zero_le_two (by push_cast; ring)]
      show _ / _ * 2 = _
      ring

/-- Witness for `Rope.CreateRope_rest_distance`: a five-joint rope from the origin to `(4,0,0)`. -/
theorem Rope.CreateRope_rest_distance_witness :
    (2 : Int) ≤ 5 ∧
    ∀ (k : Nat) (p : Int2),
      (Rope.CreateRope Real.sqrt ⟨0, 0, 0⟩ ⟨4, 0, 0⟩ 5 1).distancePairs[k]? = some p →
      ∃ (q : Vec2 ℝ) (a b : Vec3 ℝ),
        (Rope.CreateRope Real.sqrt ⟨0, 0, 0⟩ ⟨4, 0, 0⟩ 5 1).distanceParams[k]? = some q ∧
        0 ≤ p.x ∧ 0 ≤ p.y ∧
        (Rope.CreateRope Real.sqrt ⟨0, 0, 0⟩ ⟨4, 0, 0⟩ 5 1).positions[p.x.toNat]? = some a ∧
        (Rope.CreateRope Real.sqrt ⟨0, 0, 0⟩ ⟨4, 0, 0⟩ 5 1).positions[p.y.toNat]? = some b ∧
        q.x = Vec3.dist Real.sqrt a b :=
  ⟨by decide, Rope.CreateRope_rest_distance ⟨0, 0, 0⟩ ⟨4, 0, 0⟩ 5 1 (by decide)⟩

/-- **C5.** For `numJoint ≥ 2` the rope has `numJoint` positions and `2 * numJoint - 3`
distance constraints: first the `numJoint - 1` adjacent pairs `(i, i + 1)`, `i = 0 .. numJoint - 2`,
each with parameters `(d, 1.0)` where `d = |endPosition - startPosition| / (numJoint - 1)`, then the
`numJoint - 2` skip-one pairs `(i - 1, i + 1)`, `i = 1 .. numJoint - 2`, each with parameters
`(2 * d, 0.1)`. -/
theorem Rope.CreateRope_layout {K : Type} [Field K] (sqrt : K → K)
    (startPosition endPosition : Vec3 K) (numJoint : Int) (massPerParticle : K)
    (h : 2 ≤ numJoint) :
    ((Rope.CreateRope sqrt startPosition endPosition numJoint massPerParticle).positions.length : Int)
      = numJoint ∧
    ((Rope.CreateRope sqrt startPosition endPosition numJoint massPerParticle).distancePairs.length
      : Int) = 2 * numJoint - 3 ∧
    ((Rope.CreateRope sqrt startPosition endPosition numJoint massPerParticle).distanceParams.length
      : Int) = 2 * numJoint - 3 ∧
    (Rope.CreateRope sqrt startPosition endPosition numJoint massPerParticle).distancePairs
      = (List.range (numJoint - 1).toNat).map (fun (i : Nat) => (⟨(i : Int), (i : Int) + 1⟩ : Int2))
        ++ (List.range (numJoint - 2).toNat).map
            (fun (i : Nat) => (⟨(1 + (i : Int)) - 1, (1 + (i : Int)) + 1⟩ : Int2)) ∧
    (Rope.CreateRope sqrt startPosition endPosition numJoint massPerParticle).distanceParams
      = List.replicate (numJoint - 1).toNat
          (⟨Vec3.length sqrt (Vec3.sub endPosition startPosition) / ((numJoint : K) - 1), 1⟩
            : Vec2 K)
        ++ List.replicate (numJoint - 2).toNat
          (⟨2 * (Vec3.length sqrt (Vec3.sub endPosition startPosition) / ((numJoint : K) - 1)),
            1 / 10⟩ : Vec2 K) := by
  have e2 : (numJoint - 1 - 1).toNat = (numJoint - 2).toNat := by omega
  rw [Rope.CreateRope_eq]
  simp only [List.length_map, List.length_append, intRange_length]
  refine ⟨by omega, by omega, by omega, ?_, ?_⟩
  · simp only [intRange, List.map_map, sub_zero, e2]
    congr 1
    apply List.map_congr_left
    intro a _
    simp
  · simp only [intRange, List.map_map, sub_zero, e2, List.map_const', List.length_range,
      Function.comp_def]
    push_cast
    simp only [mul_comm]

/-- Witness for `Rope.CreateRope_layout`: `numJoint = 5` gives 4 adjacent and 3 skip-one pairs. -/
theorem Rope.CreateRope_layout_witness :
    (2 : Int) ≤ 5 ∧
    ((Rope.CreateRope Real.sqrt ⟨0, 0, 0⟩ ⟨4, 0, 0⟩ 5 1).positions.length : Int) = 5 ∧
    ((Rope.CreateRope Real.sqrt ⟨0, 0, 0⟩ ⟨4, 0, 0⟩ 5 1).distancePairs.length : Int)
      = 2 * 5 - 3 ∧
    ((Rope.CreateRope Real.sqrt ⟨0, 0, 0⟩ ⟨4, 0, 0⟩ 5 1).distanceParams.length : Int)
      = 2 * 5 - 3 ∧
    (Rope.CreateRope Real.sqrt ⟨0, 0, 0⟩ ⟨4, 0, 0⟩ 5 1).distancePairs
      = (List.range ((5 : Int) - 1).toNat).map
          (fun (i : Nat) => (⟨(i : Int), (i : Int) + 1⟩ : Int2))
        ++ (List.range ((5 : Int) - 2).toNat).map
            (fun (i : Nat) => (⟨(1 + (i : Int)) - 1, (1 + (i : Int)) + 1⟩ : Int2)) ∧
    (Rope.CreateRope Real.sqrt ⟨0, 0, 0⟩ ⟨4, 0, 0⟩ 5 1).distanceParams
      = List.replicate ((5 : Int) - 1).toNat
          (⟨Vec3.length Real.sqrt (Vec3.sub ⟨4, 0, 0⟩ ⟨0, 0, 0⟩) / (((5 : Int) : ℝ) - 1), 1⟩
            : Vec2 ℝ)
        ++ List.replicate ((5 : Int) - 2).toNat
          (⟨2 * (Vec3.length Real.sqrt (Vec3.sub ⟨4, 0, 0⟩ ⟨0, 0, 0⟩)
            / (((5 : Int) : ℝ) - 1)), 1 / 10⟩ : Vec2 ℝ) :=
  ⟨by decide, Rope.CreateRope_layout Real.sqrt ⟨0, 0, 0⟩ ⟨4, 0, 0⟩ 5 1 (by decide)⟩

/-- **C9.** For `numJoint ≥ 2` the rope positions are `numJoint` evenly spaced points on the
segment: the first is `startPosition`, the last is `endPosition`, and consecutive positions differ
by `(endPosition - startPosition) / (numJoint - 1)`. -/
theorem Rope.CreateRope_positions_even {K : Type} [Field K] [CharZero K] (sqrt : K → K)
    (startPosition endPosition : Vec3 K) (numJoint : Int) (massPerParticle : K)
    (h : 2 ≤ numJoint) :
    ((Rope.CreateRope sqrt startPosition endPosition numJoint massPerParticle).positions.length : Int)
      = numJoint ∧
    (Rope.CreateRope sqrt startPosition endPosition numJoint massPerParticle).positions[0]?
      = some startPosition ∧
    (Rope.CreateRope sqrt startPosition endPosition numJoint massPerParticle).positions[
        (numJoint - 1).toNat]? = some endPosition ∧
    ∀ i : Nat, (i : Int) < numJoint - 1 →
      ∃ a b : Vec3 K,
        (Rope.CreateRope sqrt startPosition endPosition numJoint massPerParticle).positions[i]?
          = some a ∧
        (Rope.CreateRope sqrt startPosition endPosition numJoint massPerParticle).positions[i + 1]?
          = some b ∧
        Vec3.sub b a = Vec3.divS (Vec3.sub endPosition startPosition) ((numJoint : K) - 1) := by
  have hn : ((numJoint : K) - 1) ≠ 0 := by
    have : ((numJoint - 1 : Int) : K) ≠ 0 := by exact_mod_cast (by omega : numJoint - 1 ≠ 0)
    simpa using this
  refine ⟨?_, ?_, ?_, ?_⟩
  · rw [Rope.CreateRope_eq]
    simp only [List.length_map, intRange_length]
    omega
  · rw [Rope.rope_positions_getElem? sqrt _ _ _ _ 0 (by omega)]
    simp [Vec3.add, Vec3.smul]
  · rw [Rope.rope_positions_getElem? sqrt _ _ _ _ _ (by omega)]
    have hc : (((numJoint - 1).toNat : Int) : K) = (numJoint : K) - 1 := by
      rw [Int.toNat_of_nonneg (by omega)]; push_cast; ring
    rw [hc]
    obtain ⟨ex, ey, ez⟩ := endPosition
    obtain ⟨sx, sy, sz⟩ := startPosition
    simp only [Int.cast_sub, Int.cast_one, div_self hn, Vec3.add, Vec3.smul, Vec3.sub, one_mul,
      add_sub_cancel]
  · intro i hi
    refine ⟨_, _, Rope.rope_positions_getElem? sqrt _ _ _ _ i (by omega),
      Rope.rope_positions_getElem? sqrt _ _ _ _ (i + 1) (by push_cast; omega), ?_⟩
    simp only [Vec3.add, Vec3.smul, Vec3.sub, Vec3.divS, Vec3.mk.injEq]
    push_cast
    refine ⟨?_, ?_, ?_⟩ <;> field_simp <;> ring

/-- Witness for `Rope.CreateRope_positions_even`: a five-joint rope over the rationals. -/
theorem Rope.CreateRope_positions_even_witness :
    (2 : Int) ≤ 5 ∧
    ((Rope.CreateRope (fun q : ℚ => q) ⟨0, 0, 0⟩ ⟨4, 8, 0⟩ 5 1).positions.length : Int) = 5 ∧
    (Rope.CreateRope (fun q : ℚ => q) ⟨0, 0, 0⟩ ⟨4, 8, 0⟩ 5 1).positions[0]? = some ⟨0, 0, 0⟩ ∧
    (Rope.CreateRope (fun q : ℚ => q) ⟨0, 0, 0⟩ ⟨4, 8, 0⟩ 5 1).positions[((5 : Int) - 1).toNat]?
      = some ⟨4, 8, 0⟩ ∧
    ∀ i : Nat, (i : Int) < 5 - 1 →
      ∃ a b : Vec3 ℚ,
        (Rope.CreateRope (fun q : ℚ => q) ⟨0, 0, 0⟩ ⟨4, 8, 0⟩ 5 1).positions[i]? = some a ∧
        (Rope.CreateRope (fun q : ℚ => q) ⟨0, 0, 0⟩ ⟨4, 8, 0⟩ 5 1).positions[i + 1]? = some b ∧
        Vec3.sub b a = Vec3.divS (Vec3.sub ⟨4, 8, 0⟩ ⟨0, 0, 0⟩) (((5 : Int) : ℚ) - 1) :=
  ⟨by decide,
    Rope.CreateRope_positions_even (fun q : ℚ => q) ⟨0, 0, 0⟩ ⟨4, 8, 0⟩ 5 1 (by decide)⟩

/-- **C10 (as stated, refuted).** `Rope::CreateRope` has no check of `numJoint`: called with
`numJoint = 1` it returns a rope with a single particle, and with `numJoint = 0` or `-3` a rope
without particles, rather than reporting an error. -/
theorem Rope.CreateRope_no_fail_fast :
    (Rope.CreateRope (fun q : ℚ => q) ⟨0, 0, 0⟩ ⟨1, 0, 0⟩ 1 1).positions.length = 1 ∧
    (Rope.CreateRope (fun q : ℚ => q) ⟨0, 0, 0⟩ ⟨1, 0, 0⟩ 0 1).positions.length = 0 ∧
    (Rope.CreateRope (fun q : ℚ => q) ⟨0, 0, 0⟩ ⟨1, 0, 0⟩ (-3) 1).positions.length = 0 := by
  simp [Rope.CreateRope_eq, intRange_length]

/-- **C10 (amended).** For every `numJoint < 2` the builder returns a rope all the same: it has
`max numJoint 0` positions (one for `numJoint = 1`, none for `numJoint ≤ 0`), no distance
constraint, and the given mass. -/
theorem Rope.CreateRope_degenerate {K : Type} [Field K] (sqrt : K → K)
    (startPosition endPosition : Vec3 K) (numJoint : Int) (massPerParticle : K)
    (h : numJoint < 2) :
    (Rope.CreateRope sqrt startPosition endPosition numJoint massPerParticle).positions.length
      = numJoint.toNat ∧
    (Rope.CreateRope sqrt startPosition endPosition numJoint massPerParticle).distancePairs = [] ∧
    (Rope.CreateRope sqrt startPosition endPosition numJoint massPerParticle).distanceParams = [] ∧
    (Rope.CreateRope sqrt startPosition endPosition numJoint massPerParticle).massPerParticle
      = massPerParticle := by
  have e1 : (numJoint - 1).toNat = 0 := by omega
  have e2 : (numJoint - 1 - 1).toNat = 0 := by omega
  rw [Rope.CreateRope_eq]
  simp only [intRange, e1, e2, List.range_zero, List.map_nil, List.append_nil, List.length_map,
    List.length_range, sub_zero, and_self]

/-- Witness for `Rope.CreateRope_degenerate`: `numJoint = 1`. -/
theorem Rope.CreateRope_degenerate_witness :
    (1 : Int) < 2 ∧
    (Rope.CreateRope Real.sqrt ⟨0, 0, 0⟩ ⟨1, 0, 0⟩ 1 1).positions.length = (1 : Int).toNat ∧
    (Rope.CreateRope Real.sqrt ⟨0, 0, 0⟩ ⟨1, 0, 0⟩ 1 1).distancePairs = [] ∧
    (Rope.CreateRope Real.sqrt ⟨0, 0, 0⟩ ⟨1, 0, 0⟩ 1 1).distanceParams = [] ∧
    (Rope.CreateRope Real.sqrt ⟨0, 0, 0⟩ ⟨1, 0, 0⟩ 1 1).massPerParticle = 1 :=
  ⟨by decide, Rope.CreateRope_degenerate Real.sqrt ⟨0, 0, 0⟩ ⟨1, 0, 0⟩ 1 1 (by decide)⟩

end RopeLemmas

/-! ## Box lattices: closed forms -/

section BoxLemmas

variable {K : Type}

/-- A loop that pushes one value per iteration and adds it to a running sum. -/
theorem foldl_sum_push [Add K] {α : Type} (f : α → Vec3 K) (l : List α)
    (acc : Vec3 K × List (Vec3 K)) :
    l.foldl (fun acc k => (Vec3.add acc.1 (f k), acc.2 ++ [f k])) acc
      = ((l.map f).foldl Vec3.add acc.1, acc.2 ++ l.map f) := by
  induction l generalizing acc with
  | nil => simp
  | cons a t ih => simp [ih]

/-- A loop that appends a block per iteration and adds its entries to a running sum. -/
theorem foldl_sum_append [Add K] {α : Type} (g : α → List (Vec3 K)) (l : List α)
    (acc : Vec3 K × List (Vec3 K)) :
    l.foldl (fun acc j => ((g j).foldl Vec3.add acc.1, acc.2 ++ g j)) acc
      = ((l.flatMap g).foldl Vec3.add acc.1, acc.2 ++ l.flatMap g) := by
  induction l generalizing acc with
  | nil => simp
  | cons a t ih => simp [ih, List.foldl_append]

/-- The triple loop of the box generators in closed form. -/
theorem box_fold_eq (P : Int → Int → Int → Vec3 K) (dx dy dz : Int) :
    (intRange 0 dx).foldl (fun acc i =>
      (intRange 0 dy).foldl (fun acc j =>
        (intRange 0 dz).foldl (fun acc k => acc ++ [P i j k]) acc) acc) []
      = (intRange 0 dx).flatMap (fun i =>
          (intRange 0 dy).flatMap (fun j => (intRange 0 dz).map (fun k => P i j k))) := by
  simp only [foldl_push_eq, foldl_append_eq, List.nil_append]

/-- The triple loop of the rigid box, with its running sum, in closed form. -/
theorem box_fold_sum_eq [Add K] (z : Vec3 K) (P : Int → Int → Int → Vec3 K) (dx dy dz : Int) :
    (intRange 0 dx).foldl (fun acc i =>
      (intRange 0 dy).foldl (fun acc j =>
        (intRange 0 dz).foldl (fun acc k =>
          (Vec3.add acc.1 (P i j k), acc.2 ++ [P i j k])) acc) acc) (z, [])
      = (((intRange 0 dx).flatMap (fun i =>
            (intRange 0 dy).flatMap (fun j => (intRange 0 dz).map (fun k => P i j k)))).foldl
              Vec3.add z,
         (intRange 0 dx).flatMap (fun i =>
            (intRange 0 dy).flatMap (fun j => (intRange 0 dz).map (fun k => P i j k)))) := by
  simp only [foldl_sum_push, foldl_sum_append, List.nil_append]

theorem box_length (P : Int → Int → Int → Vec3 K) (dx dy dz : Int) :
    ((intRange 0 dx).flatMap (fun i =>
        (intRange 0 dy).flatMap (fun j => (intRange 0 dz).map (fun k => P i j k)))).length
      = dx.toNat * (dy.toNat * dz.toNat) := by
  apply length_flatMap_intRange
  intro i
  apply length_flatMap_intRange
  intro j
  simp [intRange_length]

theorem box_getElem? (P : Int → Int → Int → Vec3 K) (dx dy dz : Int) (i j k : Nat)
    (hi : (i : Int) < dx) (hj : (j : Int) < dy) (hk : (k : Int) < dz) :
    ((intRange 0 dx).flatMap (fun i =>
        (intRange 0 dy).flatMap (fun j => (intRange 0 dz).map (fun k => P i j k))))[
          i * (dy.toNat * dz.toNat) + (j * dz.toNat + k)]?
      = some (P i j k) := by
  have hinner : ∀ (a b : Int), ((intRange 0 dz).map (fun k => P a b k)).length = dz.toNat := by
    intro a b
    simp [intRange_length]
  have hmid : ∀ a : Int, ((intRange 0 dy).flatMap
      (fun j => (intRange 0 dz).map (fun k => P a j k))).length = dy.toNat * dz.toNat :=
    fun a => length_flatMap_intRange _ _ (hinner a) _
  have hjk : j * dz.toNat + k < dy.toNat * dz.toNat := by
    have hj2 : j + 1 ≤ dy.toNat := by omega
    calc j * dz.toNat + k < j * dz.toNat + dz.toNat := by omega
      _ = (j + 1) * dz.toNat := by ring
      _ ≤ dy.toNat * dz.toNat := Nat.mul_le_mul_right _ hj2
  rw [getElem?_flatMap_intRange _ _ hmid dx i _ hi hjk,
    getElem?_flatMap_intRange _ _ (hinner _) dy j k hj (by omega)]
  simp only [List.getElem?_map, intRange_getElem?]
  rw [if_pos (by omega)]
  simp

theorem RigidBody.rigid_positions_eq [Field K] (color : Vec3 K) (d : Int3) (s t : Vec3 K) (m : K) :
    (RigidBody.CreateRigidBox color d s t m).positions
      = (intRange 0 d.x).flatMap (fun i => (intRange 0 d.y).flatMap (fun j =>
          (intRange 0 d.z).map (fun k => Vec3.add s (Vec3.mul t (Vec3.ofInts i j k))))) := by
  unfold RigidBody.CreateRigidBox
  simp only [box_fold_sum_eq (Vec3.splat 0)
    (fun i j k => Vec3.add s (Vec3.mul t (Vec3.ofInts i j k)))]

theorem Granulars.granulars_positions_eq [Field K] (d : Int3) (s t : Vec3 K) (m : K) :
    (Granulars.CreateGranularsBlock d s t m).positions
      = (intRange 0 d.x).flatMap (fun i => (intRange 0 d.y).flatMap (fun j =>
          (intRange 0 d.z).map (fun k => Vec3.add s (Vec3.mul t (Vec3.ofInts i j k))))) := by
  unfold Granulars.CreateGranularsBlock
  simp only [box_fold_eq (fun i j k => Vec3.add s (Vec3.mul t (Vec3.ofInts i j k)))]

theorem Fluid.fluid_positions_eq [Field K] (d : Int3) (s t : Vec3 K) (m : K) :
    (Fluid.CreateFluidBlock d s t m).positions
      = (intRange 0 d.x).flatMap (fun i => (intRange 0 d.y).flatMap (fun j =>
          (intRange 0 d.z).map (fun k => Vec3.add s (Vec3.mul t (Vec3.ofInts i j k))))) := by
  unfold Fluid.CreateFluidBlock
  simp only [box_fold_eq (fun i j k => Vec3.add s (Vec3.mul t (Vec3.ofInts i j k)))]

/-- Index and length of the box lattice, with `int` indices as in the source. -/
theorem box_lattice_int (P : Int → Int → Int → Vec3 K) (dx dy dz : Int)
    (hx : 0 ≤ dx) (hy : 0 ≤ dy) (hz : 0 ≤ dz) :
    ((((intRange 0 dx).flatMap (fun i =>
        (intRange 0 dy).flatMap (fun j => (intRange 0 dz).map (fun k => P i j k)))).length : Nat)
          : Int) = dx * dy * dz ∧
    ∀ i j k : Int, 0 ≤ i → i < dx → 0 ≤ j → j < dy → 0 ≤ k → k < dz →
      ((intRange 0 dx).flatMap (fun i =>
        (intRange 0 dy).flatMap (fun j => (intRange 0 dz).map (fun k => P i j k))))[
          (i * dy * dz + j * dz + k).toNat]? = some (P i j k) := by
  constructor
  · rw [box_length]
    push_cast
    rw [Int.toNat_of_nonneg hx, Int.toNat_of_nonneg hy, Int.toNat_of_nonneg hz]
    ring
  · intro i j k hi0 hi hj0 hj hk0 hk
    have e : i * dy * dz + j * dz + k
        = ((i.toNat * (dy.toNat * dz.toNat) + (j.toNat * dz.toNat + k.toNat) : Nat) : Int) := by
      push_cast
      rw [Int.toNat_of_nonneg hi0, Int.toNat_of_nonneg hj0, Int.toNat_of_nonneg hk0,
        Int.toNat_of_nonneg hy, Int.toNat_of_nonneg hz]
      ring
    rw [e, Int.toNat_natCast,
      box_getElem? P dx dy dz i.toNat j.toNat k.toNat (by omega) (by omega) (by omega),
      Int.toNat_of_nonneg hi0, Int.toNat_of_nonneg hj0, Int.toNat_of_nonneg hk0]

/-- **C8.** For a dimension with non-negative components, each of the three box generators
(`CreateRigidBox`, `CreateGranularsBlock`, `CreateFluidBlock`) produces `dx * dy * dz`
positions, the entry at index `i * dy * dz + j * dz + k` being
`startPosition + stepSize * (i, j, k)` component-wise; and the three position lists are equal. -/
theorem CreateBox_positions_lattice {K : Type} [Field K] (color : Vec3 K) (dimension : Int3)
    (startPosition stepSize : Vec3 K) (massPerParticle : K)
    (hx : 0 ≤ dimension.x) (hy : 0 ≤ dimension.y) (hz : 0 ≤ dimension.z) :
    (∀ positions ∈
        [(RigidBody.CreateRigidBox color dimension startPosition stepSize massPerParticle).positions,
         (Granulars.CreateGranularsBlock dimension startPosition stepSize massPerParticle).positions,
         (Fluid.CreateFluidBlock dimension startPosition stepSize massPerParticle).positions],
      ((positions.length : Nat) : Int) = dimension.x * dimension.y * dimension.z ∧
      ∀ i j k : Int, 0 ≤ i → i < dimension.x → 0 ≤ j → j < dimension.y →
        0 ≤ k → k < dimension.z →
        positions[(i * dimension.y * dimension.z + j * dimension.z + k).toNat]?
          = some (Vec3.add startPosition (Vec3.mul stepSize (Vec3.ofInts i j k)))) ∧
    (Granulars.CreateGranularsBlock dimension startPosition stepSize massPerParticle).positions
      = (RigidBody.CreateRigidBox color dimension startPosition stepSize massPerParticle).positions ∧
    (Fluid.CreateFluidBlock dimension startPosition stepSize massPerParticle).positions
      = (RigidBody.CreateRigidBox color dimension startPosition stepSize massPerParticle).positions
    := by
  rw [RigidBody.rigid_positions_eq, Granulars.granulars_positions_eq, Fluid.fluid_positions_eq]
  refine ⟨?_, rfl, rfl⟩
  intro positions hmem
  simp only [List.mem_cons, or_self, List.mem_singleton, List.not_mem_nil, or_false] at hmem
  subst hmem
  exact box_lattice_int (fun i j k => Vec3.add startPosition (Vec3.mul stepSize (Vec3.ofInts i j k)))
    _ _ _ hx hy hz

/-- Witness for `CreateBox_positions_lattice`: a `2 × 3 × 4` box over the rationals. -/
theorem CreateBox_positions_lattice_witness :
    ((0 : Int) ≤ (⟨2, 3, 4⟩ : Int3).x ∧ (0 : Int) ≤ (⟨2, 3, 4⟩ : Int3).y ∧
      (0 : Int) ≤ (⟨2, 3, 4⟩ : Int3).z) ∧
    ((∀ positions ∈
        [(RigidBody.CreateRigidBox (K := ℚ) ⟨1, 0, 0⟩ ⟨2, 3, 4⟩ ⟨0, 1, 0⟩ ⟨1, 2, 3⟩ 1).positions,
         (Granulars.CreateGranularsBlock (K := ℚ) ⟨2, 3, 4⟩ ⟨0, 1, 0⟩ ⟨1, 2, 3⟩ 1).positions,
         (Fluid.CreateFluidBlock (K := ℚ) ⟨2, 3, 4⟩ ⟨0, 1, 0⟩ ⟨1, 2, 3⟩ 1).positions],
      ((positions.length : Nat) : Int)
        = (⟨2, 3, 4⟩ : Int3).x * (⟨2, 3, 4⟩ : Int3).y * (⟨2, 3, 4⟩ : Int3).z ∧
      ∀ i j k : Int, 0 ≤ i → i < (⟨2, 3, 4⟩ : Int3).x → 0 ≤ j → j < (⟨2, 3, 4⟩ : Int3).y →
        0 ≤ k → k < (⟨2, 3, 4⟩ : Int3).z →
        positions[(i * (⟨2, 3, 4⟩ : Int3).y * (⟨2, 3, 4⟩ : Int3).z
            + j * (⟨2, 3, 4⟩ : Int3).z + k).toNat]?
          = some (Vec3.add ⟨0, 1, 0⟩ (Vec3.mul ⟨1, 2, 3⟩ (Vec3.ofInts i j k)))) ∧
    (Granulars.CreateGranularsBlock (K := ℚ) ⟨2, 3, 4⟩ ⟨0, 1, 0⟩ ⟨1, 2, 3⟩ 1).positions
      = (RigidBody.CreateRigidBox (K := ℚ) ⟨1, 0, 0⟩ ⟨2, 3, 4⟩ ⟨0, 1, 0⟩ ⟨1, 2, 3⟩ 1).positions ∧
    (Fluid.CreateFluidBlock (K := ℚ) ⟨2, 3, 4⟩ ⟨0, 1, 0⟩ ⟨1, 2, 3⟩ 1).positions
      = (RigidBody.CreateRigidBox (K := ℚ) ⟨1, 0, 0⟩ ⟨2, 3, 4⟩ ⟨0, 1, 0⟩ ⟨1, 2, 3⟩ 1).positions) :=
  ⟨⟨by decide, by decide, by decide⟩,
    CreateBox_positions_lattice ⟨1, 0, 0⟩ ⟨2, 3, 4⟩ ⟨0, 1, 0⟩ ⟨1, 2, 3⟩ 1
      (by decide) (by decide) (by decide)⟩

/-- Reading a vector back through `positions[i]` for `i = 0 .. size - 1` maps over it. -/
theorem map_range_getD {α β : Type} (g : α → β) (d : α) (l : List α) :
    (List.range l.length).map (fun i => g (l.getD i d)) = l.map g := by
  apply List.ext_getElem?
  intro n
  by_cases hn : n < l.length
  · simp [List.getElem?_range hn, List.getD_eq_getElem?_getD, List.getElem?_eq_getElem hn]
  · have h1 : l.length ≤ n := by omega
    rw [List.getElem?_eq_none (by simpa using h1), List.getElem?_eq_none (by simpa using h1)]

/-- The rigid box builder in closed form. -/
theorem RigidBody.CreateRigidBox_eq [Field K] (color : Vec3 K) (d : Int3) (s t : Vec3 K) (m : K) :
    RigidBody.CreateRigidBox color d s t m =
      { positions := (RigidBody.CreateRigidBox color d s t m).positions,
        positions_CM_Origin := (RigidBody.CreateRigidBox color d s t m).positions.map
          (fun p => Vec3.sub p (Vec3.divS
            (Vec3.sum (RigidBody.CreateRigidBox color d s t m).positions)
            (((RigidBody.CreateRigidBox color d s t m).positions.length : Nat) : K))),
        CM := Vec3.divS (Vec3.sum (RigidBody.CreateRigidBox color d s t m).positions)
            (((RigidBody.CreateRigidBox color d s t m).positions.length : Nat) : K),
        color := color, massPerParticle := m } := by
  rw [RigidBody.rigid_positions_eq]
  unfold RigidBody.CreateRigidBox
  simp only [box_fold_sum_eq (Vec3.splat 0)
    (fun i j k => Vec3.add s (Vec3.mul t (Vec3.ofInts i j k))), foldl_push_eq, List.nil_append,
    Vec3.sum]
  congr 1
  exact map_range_getD (fun p => Vec3.sub p _) _ _

theorem Vec3.foldl_add_x [AddMonoid K] (l : List (Vec3 K)) (a : Vec3 K) :
    (l.foldl Vec3.add a).x = a.x + (l.map (fun p => p.x)).sum := by
  induction l generalizing a with
  | nil => simp
  | cons b t ih => simp [ih, Vec3.add, add_assoc]

theorem Vec3.foldl_add_y [AddMonoid K] (l : List (Vec3 K)) (a : Vec3 K) :
    (l.foldl Vec3.add a).y = a.y + (l.map (fun p => p.y)).sum := by
  induction l generalizing a with
  | nil => simp
  | cons b t ih => simp [ih, Vec3.add, add_assoc]

theorem Vec3.foldl_add_z [AddMonoid K] (l : List (Vec3 K)) (a : Vec3 K) :
    (l.foldl Vec3.add a).z = a.z + (l.map (fun p => p.z)).sum := by
  induction l generalizing a with
  | nil => simp
  | cons b t ih => simp [ih, Vec3.add, add_assoc]

/-- Sum of `f p - c` over a list. -/
theorem sum_map_sub_const [Field K] {α : Type} (f : α → K) (c : K) (l : List α) :
    (l.map (fun p => f p - c)).sum = (l.map f).sum - (l.length : K) * c := by
  induction l with
  | nil => simp
  | cons b t ih =>
    simp only [List.map_cons, List.sum_cons, ih, List.length_cons]
    push_cast
    ring

/-- Subtracting the mean from every vector leaves vectors that sum to zero. -/
theorem Vec3.sum_sub_mean [Field K] [CharZero K] (l : List (Vec3 K)) (hl : l ≠ []) :
    Vec3.sum (l.map (fun p => Vec3.sub p (Vec3.divS (Vec3.sum l) ((l.length : Nat) : K))))
      = Vec3.splat 0 := by
  have hn : ((l.length : Nat) : K) ≠ 0 := by
    have : l.length ≠ 0 := by simpa using hl
    exact_mod_cast this
  have hx := Vec3.foldl_add_x l (Vec3.splat 0)
  have hy := Vec3.foldl_add_y l (Vec3.splat 0)
  have hz := Vec3.foldl_add_z l (Vec3.splat 0)
  unfold Vec3.sum at *
  apply Vec3.ext
  · rw [Vec3.foldl_add_x, List.map_map]
    simp only [Function.comp_def, Vec3.sub, Vec3.divS, hx]
    rw [sum_map_sub_const (fun p : Vec3 K => p.x)]
    simp only [Vec3.splat, zero_add]
    field_simp
  · rw [Vec3.foldl_add_y, List.map_map]
    simp only [Function.comp_def, Vec3.sub, Vec3.divS, hy]
    rw [sum_map_sub_const (fun p : Vec3 K => p.y)]
    simp only [Vec3.splat, zero_add]
    field_simp
  · rw [Vec3.foldl_add_z, List.map_map]
    simp only [Function.comp_def, Vec3.sub, Vec3.divS, hz]
    rw [sum_map_sub_const (fun p : Vec3 K => p.z)]
    simp only [Vec3.splat, zero_add]
    field_simp

/-- **C3.** For a rigid box whose three dimension components are at least 1, there is at least
one particle, `CM` is the arithmetic mean of `positions` (their sum divided by their number),
`positions_CM_Origin` has the length of `positions` with entry `i` equal to
`positions[i] - CM`, and the vectors of `positions_CM_Origin` sum to the zero vector. -/
theorem RigidBody.CreateRigidBox_center_of_mass {K : Type} [Field K] [CharZero K]
    (color : Vec3 K) (dimension : Int3) (startPosition stepSize : Vec3 K) (massPerParticle : K)
    (hx : 1 ≤ dimension.x) (hy : 1 ≤ dimension.y) (hz : 1 ≤ dimension.z) :
    0 < (RigidBody.CreateRigidBox color dimension startPosition stepSize
      massPerParticle).positions.length ∧
    (RigidBody.CreateRigidBox color dimension startPosition stepSize massPerParticle).CM
      = Vec3.divS
          (Vec3.sum (RigidBody.CreateRigidBox color dimension startPosition stepSize
            massPerParticle).positions)
          (((RigidBody.CreateRigidBox color dimension startPosition stepSize
            massPerParticle).positions.length : Nat) : K) ∧
    (RigidBody.CreateRigidBox color dimension startPosition stepSize
        massPerParticle).positions_CM_Origin.length
      = (RigidBody.CreateRigidBox color dimension startPosition stepSize
        massPerParticle).positions.length ∧
    (∀ i : Nat,
      (RigidBody.CreateRigidBox color dimension startPosition stepSize
          massPerParticle).positions_CM_Origin[i]?
        = ((RigidBody.CreateRigidBox color dimension startPosition stepSize
            massPerParticle).positions[i]?).map
          (fun p => Vec3.sub p
            (RigidBody.CreateRigidBox color dimension startPosition stepSize massPerParticle).CM)) ∧
    Vec3.sum (RigidBody.CreateRigidBox color dimension startPosition stepSize
        massPerParticle).positions_CM_Origin = Vec3.splat 0 := by
  have hpos : 0 < (RigidBody.CreateRigidBox color dimension startPosition stepSize
      massPerParticle).positions.length := by
    rw [RigidBody.rigid_positions_eq, box_length]
    have h1 : 0 < dimension.x.toNat := by omega
    have h2 : 0 < dimension.y.toNat := by omega
    have h3 : 0 < dimension.z.toNat := by omega
    positivity
  have hne : (RigidBody.CreateRigidBox color dimension startPosition stepSize
      massPerParticle).positions ≠ [] := List.ne_nil_of_length_pos hpos
  refine ⟨hpos, ?_, ?_, ?_, ?_⟩
  · rw [RigidBody.CreateRigidBox_eq]
  · rw [RigidBody.CreateRigidBox_eq]
    simp only [List.length_map]
  · intro i
    rw [RigidBody.CreateRigidBox_eq]
    simp only [List.getElem?_map]
  · rw [RigidBody.CreateRigidBox_eq]
    exact Vec3.sum_sub_mean _ hne

/-- Witness for `RigidBody.CreateRigidBox_center_of_mass`: a `2 × 3 × 4` box. -/
theorem RigidBody.CreateRigidBox_center_of_mass_witness :
    ((1 : Int) ≤ (⟨2, 3, 4⟩ : Int3).x ∧ (1 : Int) ≤ (⟨2, 3, 4⟩ : Int3).y ∧
      (1 : Int) ≤ (⟨2, 3, 4⟩ : Int3).z) ∧
    Vec3.sum (RigidBody.CreateRigidBox (K := ℚ) ⟨1, 0, 0⟩ ⟨2, 3, 4⟩ ⟨0, 1, 0⟩ ⟨1, 2, 3⟩
      1).positions_CM_Origin = Vec3.splat 0 :=
  ⟨⟨by decide, by decide, by decide⟩,
    (RigidBody.CreateRigidBox_center_of_mass (K := ℚ) ⟨1, 0, 0⟩ ⟨2, 3, 4⟩ ⟨0, 1, 0⟩ ⟨1, 2, 3⟩ 1
      (by decide) (by decide) (by decide)).2.2.2.2⟩

/-! ### The centre of the rigid box -/

/-- Sum of a function over the entries of concatenated blocks. -/
theorem sum_map_flatMap [AddCommMonoid K] {α β : Type} (l : List α) (f : α → List β)
    (g : β → K) :
    ((l.flatMap f).map g).sum = (l.map (fun a => ((f a).map g).sum)).sum := by
  induction l with
  | nil => simp
  | cons a t ih => simp [List.flatMap_cons, ih]

/-- Sum of a constant over a loop. -/
theorem sum_intRange_const [Field K] (n : Int) (c : K) :
    ((intRange 0 n).map (fun _ => c)).sum = (n.toNat : K) * c := by
  simp [intRange_length]

/-- Sum of `c + e * i` over `i = 0 .. n - 1` (Gauss). -/
theorem sum_range_affine [Field K] [CharZero K] (n : Nat) (c e : K) :
    ((List.range n).map (fun (i : Nat) => c + e * (i : K))).sum
      = (n : K) * (c + e * (((n : K) - 1) / 2)) := by
  induction n with
  | zero => simp
  | succ n ih =>
    rw [List.range_succ, List.map_append, List.sum_append, ih]
    simp only [List.map_cons, List.map_nil, List.sum_cons, List.sum_nil, add_zero]
    push_cast
    field_simp
    ring

/-- The loop version of `sum_range_affine`. -/
theorem sum_intRange_affine [Field K] [CharZero K] (n : Int) (c e : K) :
    ((intRange 0 n).map (fun (i : Int) => c + e * (i : K))).sum
      = (n.toNat : K) * (c + e * (((n.toNat : K) - 1) / 2)) := by
  rw [intRange_zero_eq, List.map_map, ← sum_range_affine]
  congr 1
  apply List.map_congr_left
  intro a _
  simp

/-- The centre of mass of the rigid box, component by component. -/
theorem RigidBody.CreateRigidBox_CM_eq [Field K] [CharZero K] (color : Vec3 K) (d : Int3)
    (s t : Vec3 K) (m : K) (hx : 1 ≤ d.x) (hy : 1 ≤ d.y) (hz : 1 ≤ d.z) :
    (RigidBody.CreateRigidBox color d s t m).CM
      = Vec3.add s (Vec3.mul t ⟨((d.x : K) - 1) / 2, ((d.y : K) - 1) / 2, ((d.z : K) - 1) / 2⟩)
    := by
  have hcx : ((d.x.toNat : Nat) : K) = (d.x : K) := by
    rw [← Int.cast_natCast, Int.toNat_of_nonneg (by omega)]
  have hcy : ((d.y.toNat : Nat) : K) = (d.y : K) := by
    rw [← Int.cast_natCast, Int.toNat_of_nonneg (by omega)]
  have hcz : ((d.z.toNat : Nat) : K) = (d.z : K) := by
    rw [← Int.cast_natCast, Int.toNat_of_nonneg (by omega)]
  have hnx : (d.x : K) ≠ 0 := by exact_mod_cast (by omega : d.x ≠ 0)
  have hny : (d.y : K) ≠ 0 := by exact_mod_cast (by omega : d.y ≠ 0)
  have hnz : (d.z : K) ≠ 0 := by exact_mod_cast (by omega : d.z ≠ 0)
  rw [RigidBody.CreateRigidBox_eq]
  simp only
  rw [RigidBody.rigid_positions_eq, box_length]
  unfold Vec3.sum
  apply Vec3.ext
  · simp only [Vec3.divS, Vec3.foldl_add_x, Vec3.splat, zero_add, sum_map_flatMap,
      List.map_map, Function.comp_def, Vec3.add, Vec3.mul, Vec3.ofInts]
    simp only [sum_intRange_const, sum_intRange_affine]
    rw [show (fun a : Int => (d.y.toNat : K) * ((d.z.toNat : K) * (s.x + t.x * (a : K))))
        = (fun a : Int => (d.y.toNat : K) * (d.z.toNat : K) * s.x
            + (d.y.toNat : K) * (d.z.toNat : K) * t.x * (a : K)) from by funext a; ring,
      sum_intRange_affine]
    push_cast
    rw [hcx, hcy, hcz]
    field_simp
    ring
  · simp only [Vec3.divS, Vec3.foldl_add_y, Vec3.splat, zero_add, sum_map_flatMap,
      List.map_map, Function.comp_def, Vec3.add, Vec3.mul, Vec3.ofInts]
    simp only [sum_intRange_const]
    rw [show (fun a : Int => (d.z.toNat : K) * (s.y + t.y * (a : K)))
        = (fun a : Int => (d.z.toNat : K) * s.y + (d.z.toNat : K) * t.y * (a : K))
        from by funext a; ring]
    simp only [sum_intRange_affine, sum_intRange_const]
    push_cast
    rw [hcx, hcy, hcz]
    field_simp
    ring
  · simp only [Vec3.divS, Vec3.foldl_add_z, Vec3.splat, zero_add, sum_map_flatMap,
      List.map_map, Function.comp_def, Vec3.add, Vec3.mul, Vec3.ofInts]
    simp only [sum_intRange_affine, sum_intRange_const]
    push_cast
    rw [hcx, hcy, hcz]
    field_simp
    ring

/-- **C19.** For a rigid box whose dimension components are all at least 1, the centre of mass
is the geometric centre of the lattice,
`CM = startPosition + stepSize * ((dx-1)/2, (dy-1)/2, (dz-1)/2)` component-wise; and
`positions_CM_Origin` is point-symmetric about the origin: its entry for `(i, j, k)` is the
negation of its entry for `(dx-1-i, dy-1-j, dz-1-k)`. -/
theorem RigidBody.CreateRigidBox_centre {K : Type} [Field K] [CharZero K]
    (color : Vec3 K) (dimension : Int3) (startPosition stepSize : Vec3 K) (massPerParticle : K)
    (hx : 1 ≤ dimension.x) (hy : 1 ≤ dimension.y) (hz : 1 ≤ dimension.z) :
    (RigidBody.CreateRigidBox color dimension startPosition stepSize massPerParticle).CM
      = Vec3.add startPosition (Vec3.mul stepSize
          ⟨((dimension.x : K) - 1) / 2, ((dimension.y : K) - 1) / 2,
           ((dimension.z : K) - 1) / 2⟩) ∧
    ∀ i j k : Int, 0 ≤ i → i < dimension.x → 0 ≤ j → j < dimension.y →
      0 ≤ k → k < dimension.z →
      ∃ u v : Vec3 K,
        (RigidBody.CreateRigidBox color dimension startPosition stepSize
          massPerParticle).positions_CM_Origin[
            (i * dimension.y * dimension.z + j * dimension.z + k).toNat]? = some u ∧
        (RigidBody.CreateRigidBox color dimension startPosition stepSize
          massPerParticle).positions_CM_Origin[
            ((dimension.x - 1 - i) * dimension.y * dimension.z
              + (dimension.y - 1 - j) * dimension.z + (dimension.z - 1 - k)).toNat]? = some v ∧
        u = Vec3.neg v := by
  have hCM := RigidBody.CreateRigidBox_CM_eq color dimension startPosition stepSize
    massPerParticle hx hy hz
  refine ⟨hCM, ?_⟩
  intro i j k hi0 hi hj0 hj hk0 hk
  have hlat := (box_lattice_int
    (fun i j k => Vec3.add startPosition (Vec3.mul stepSize (Vec3.ofInts i j k)))
    dimension.x dimension.y dimension.z (by omega) (by omega) (by omega)).2
  have hpc : ∀ n : Nat,
      (RigidBody.CreateRigidBox color dimension startPosition stepSize
        massPerParticle).positions_CM_Origin[n]?
      = ((RigidBody.CreateRigidBox color dimension startPosition stepSize
          massPerParticle).positions[n]?).map (fun p => Vec3.sub p
            (RigidBody.CreateRigidBox color dimension startPosition stepSize
              massPerParticle).CM) := by
    intro n
    rw [RigidBody.CreateRigidBox_eq]
    simp only [List.getElem?_map]
  refine ⟨Vec3.sub (Vec3.add startPosition (Vec3.mul stepSize (Vec3.ofInts i j k)))
      (RigidBody.CreateRigidBox color dimension startPosition stepSize massPerParticle).CM,
    Vec3.sub (Vec3.add startPosition (Vec3.mul stepSize
        (Vec3.ofInts (dimension.x - 1 - i) (dimension.y - 1 - j) (dimension.z - 1 - k))))
      (RigidBody.CreateRigidBox color dimension startPosition stepSize massPerParticle).CM,
    ?_, ?_, ?_⟩
  · rw [hpc, RigidBody.rigid_positions_eq, hlat i j k hi0 hi hj0 hj hk0 hk]
    rfl
  · rw [hpc, RigidBody.rigid_positions_eq,
      hlat (dimension.x - 1 - i) (dimension.y - 1 - j) (dimension.z - 1 - k)
        (by omega) (by omega) (by omega) (by omega) (by omega) (by omega)]
    rfl
  · rw [hCM]
    simp only [Vec3.sub, Vec3.add, Vec3.mul, Vec3.ofInts, Vec3.neg, Vec3.mk.injEq]
    push_cast
    refine ⟨?_, ?_, ?_⟩ <;> ring

/-- Witness for `RigidBody.CreateRigidBox_centre`: a `2 × 3 × 4` box over the rationals has its
centre of mass at `startPosition + stepSize * (1/2, 1, 3/2)`. -/
theorem RigidBody.CreateRigidBox_centre_witness :
    ((1 : Int) ≤ (⟨2, 3, 4⟩ : Int3).x ∧ (1 : Int) ≤ (⟨2, 3, 4⟩ : Int3).y ∧
      (1 : Int) ≤ (⟨2, 3, 4⟩ : Int3).z) ∧
    (RigidBody.CreateRigidBox (K := ℚ) ⟨1, 0, 0⟩ ⟨2, 3, 4⟩ ⟨0, 1, 0⟩ ⟨1, 2, 3⟩ 1).CM
      = Vec3.add ⟨0, 1, 0⟩ (Vec3.mul ⟨1, 2, 3⟩
          ⟨((((⟨2, 3, 4⟩ : Int3).x : Int) : ℚ) - 1) / 2,
           ((((⟨2, 3, 4⟩ : Int3).y : Int) : ℚ) - 1) / 2,
           ((((⟨2, 3, 4⟩ : Int3).z : Int) : ℚ) - 1) / 2⟩) :=
  ⟨⟨by decide, by decide, by decide⟩,
    (RigidBody.CreateRigidBox_centre (K := ℚ) ⟨1, 0, 0⟩ ⟨2, 3, 4⟩ ⟨0, 1, 0⟩ ⟨1, 2, 3⟩ 1
      (by decide) (by decide) (by decide)).1⟩

end BoxLemmas





/-! ## Cloth: closed forms -/

section ClothLemmas

variable {K : Type}

theorem intRange_zero_three : intRange 0 3 = [0, 1, 2] := by decide

/-- One execution of the loop body appends one position and the three blocks. -/
theorem Cloth.loopBody_eq [Field K] (s oX oY : Vec3 K) (nX nY : Int) (lX lY lD k1 k2 : K)
    (c : Cloth K) (x y : Int) :
    Cloth.loopBody s oX oY nX nY lX lY lD k1 k2 c x y =
      { c with
        positions := c.positions ++
          [Vec3.add (Vec3.add s (Vec3.smul (y : K) oX)) (Vec3.smul (x : K) oY)],
        faces := c.faces ++ Cloth.facesAt nX nY x y,
        distancePairs := c.distancePairs ++
          (Cloth.structuralAt nX nY lX lY lD k1 x y ++ Cloth.bendingAt nX nY lX lY k2 x y).map
            Prod.fst,
        distanceParams := c.distanceParams ++
          (Cloth.structuralAt nX nY lX lY lD k1 x y ++ Cloth.bendingAt nX nY lX lY k2 x y).map
            Prod.snd } := by
  unfold Cloth.loopBody Cloth.facesAt Cloth.structuralAt Cloth.bendingAt
  simp only [intRange_zero_three, List.foldl_cons, List.foldl_nil, Cloth.pushDistance]
  by_cases h1 : x < nX - 1 <;> by_cases h2 : y < nY - 1 <;> by_cases h3 : 0 < x <;>
    by_cases h4 : 0 < y <;>
    simp [h1, h2, h3, h4]
  refine ⟨⟨?_, Or.inl ?_⟩, ?_, ?_, ⟨?_, ?_⟩, Or.inl ?_⟩ <;> ring

/-- The inner loop (over `y`, at fixed `x`) in closed form. -/
theorem Cloth.foldl_inner_eq [Field K] (s oX oY : Vec3 K) (nX nY : Int) (lX lY lD k1 k2 : K)
    (x : Int) (l : List Int) (c : Cloth K) :
    l.foldl (fun c y => Cloth.loopBody s oX oY nX nY lX lY lD k1 k2 c x y) c =
      { c with
        positions := c.positions ++ l.map (fun (y : Int) =>
          Vec3.add (Vec3.add s (Vec3.smul (y : K) oX)) (Vec3.smul (x : K) oY)),
        faces := c.faces ++ l.flatMap (fun y => Cloth.facesAt nX nY x y),
        distancePairs := c.distancePairs ++ (l.flatMap (fun y =>
          Cloth.structuralAt nX nY lX lY lD k1 x y ++ Cloth.bendingAt nX nY lX lY k2 x y)).map
            Prod.fst,
        distanceParams := c.distanceParams ++ (l.flatMap (fun y =>
          Cloth.structuralAt nX nY lX lY lD k1 x y ++ Cloth.bendingAt nX nY lX lY k2 x y)).map
            Prod.snd } := by
  induction l generalizing c with
  | nil => simp
  | cons a t ih =>
    rw [List.foldl_cons, ih, Cloth.loopBody_eq]
    simp only [List.map_cons, List.flatMap_cons, List.map_append, List.append_assoc,
      List.singleton_append]

/-- The double loop in closed form. -/
theorem Cloth.foldl_outer_eq [Field K] (s oX oY : Vec3 K) (nX nY : Int) (lX lY lD k1 k2 : K)
    (ly : List Int) (l : List Int) (c : Cloth K) :
    l.foldl (fun c x =>
        ly.foldl (fun c y => Cloth.loopBody s oX oY nX nY lX lY lD k1 k2 c x y) c) c =
      { c with
        positions := c.positions ++ l.flatMap (fun (x : Int) => ly.map (fun (y : Int) =>
          Vec3.add (Vec3.add s (Vec3.smul (y : K) oX)) (Vec3.smul (x : K) oY))),
        faces := c.faces ++ l.flatMap (fun x => ly.flatMap (fun y => Cloth.facesAt nX nY x y)),
        distancePairs := c.distancePairs ++ (l.flatMap (fun x => ly.flatMap (fun y =>
          Cloth.structuralAt nX nY lX lY lD k1 x y ++ Cloth.bendingAt nX nY lX lY k2 x y))).map
            Prod.fst,
        distanceParams := c.distanceParams ++ (l.flatMap (fun x => ly.flatMap (fun y =>
          Cloth.structuralAt nX nY lX lY lD k1 x y ++ Cloth.bendingAt nX nY lX lY k2 x y))).map
            Prod.snd } := by
  induction l generalizing c with
  | nil => simp
  | cons a t ih =>
    rw [List.foldl_cons, ih, Cloth.foldl_inner_eq]
    simp only [List.flatMap_cons, List.map_append, List.append_assoc]

/-- The immovables pushed by the four corner flags. -/
theorem Cloth.CreateCloth_immovables [Field K] (sqrt : K → K) (s oX oY : Vec3 K) (nX nY : Int) (m : K)
    (c1 c2 c3 c4 : Bool) :
    (Cloth.CreateCloth sqrt s oX oY nX nY m c1 c2 c3 c4).immovables =
      (if c1 then [0] else []) ++ (if c2 then [nX - 1] else []) ++
      (if c3 then [nX * (nY - 1)] else []) ++ (if c4 then [nX * nY - 1] else []) := by
  unfold Cloth.CreateCloth
  simp only [Cloth.foldl_outer_eq]
  cases c1 <;> cases c2 <;> cases c3 <;> cases c4 <;> rfl

theorem Cloth.CreateCloth_positions [Field K] (sqrt : K → K) (s oX oY : Vec3 K) (nX nY : Int) (m : K)
    (c1 c2 c3 c4 : Bool) :
    (Cloth.CreateCloth sqrt s oX oY nX nY m c1 c2 c3 c4).positions =
      (intRange 0 nX).flatMap (fun (x : Int) => (intRange 0 nY).map (fun (y : Int) =>
        Vec3.add (Vec3.add s (Vec3.smul (y : K) oX)) (Vec3.smul (x : K) oY))) := by
  unfold Cloth.CreateCloth
  simp only [Cloth.foldl_outer_eq]
  cases c1 <;> cases c2 <;> cases c3 <;> cases c4 <;> rfl

theorem Cloth.CreateCloth_faces [Field K] (sqrt : K → K) (s oX oY : Vec3 K) (nX nY : Int) (m : K)
    (c1 c2 c3 c4 : Bool) :
    (Cloth.CreateCloth sqrt s oX oY nX nY m c1 c2 c3 c4).faces =
      (intRange 0 nX).flatMap (fun x => (intRange 0 nY).flatMap (fun y =>
        Cloth.facesAt nX nY x y)) := by
  unfold Cloth.CreateCloth
  simp only [Cloth.foldl_outer_eq]
  cases c1 <;> cases c2 <;> cases c3 <;> cases c4 <;> rfl

theorem Cloth.CreateCloth_distancePairs [Field K] (sqrt : K → K) (s oX oY : Vec3 K) (nX nY : Int) (m : K)
    (c1 c2 c3 c4 : Bool) :
    (Cloth.CreateCloth sqrt s oX oY nX nY m c1 c2 c3 c4).distancePairs =
      ((intRange 0 nX).flatMap (fun x => (intRange 0 nY).flatMap (fun y =>
        Cloth.structuralAt nX nY (Vec3.length sqrt oX) (Vec3.length sqrt oY)
            (Vec3.length sqrt (Vec3.add oX oY)) (2 / 10) x y ++
          Cloth.bendingAt nX nY (Vec3.length sqrt oX) (Vec3.length sqrt oY) (1 / 10) x y))).map
        Prod.fst := by
  unfold Cloth.CreateCloth
  simp only [Cloth.foldl_outer_eq]
  cases c1 <;> cases c2 <;> cases c3 <;> cases c4 <;> rfl

theorem Cloth.CreateCloth_distanceParams [Field K] (sqrt : K → K) (s oX oY : Vec3 K) (nX nY : Int) (m : K)
    (c1 c2 c3 c4 : Bool) :
    (Cloth.CreateCloth sqrt s oX oY nX nY m c1 c2 c3 c4).distanceParams =
      ((intRange 0 nX).flatMap (fun x => (intRange 0 nY).flatMap (fun y =>
        Cloth.structuralAt nX nY (Vec3.length sqrt oX) (Vec3.length sqrt oY)
            (Vec3.length sqrt (Vec3.add oX oY)) (2 / 10) x y ++
          Cloth.bendingAt nX nY (Vec3.length sqrt oX) (Vec3.length sqrt oY) (1 / 10) x y))).map
        Prod.snd := by
  unfold Cloth.CreateCloth
  simp only [Cloth.foldl_outer_eq]
  cases c1 <;> cases c2 <;> cases c3 <;> cases c4 <;> rfl

/-- The pairs and their parameters, zipped, are the blocks of the loop body in loop order. -/
theorem Cloth.CreateCloth_zip [Field K] (sqrt : K → K) (s oX oY : Vec3 K) (nX nY : Int) (m : K)
    (c1 c2 c3 c4 : Bool) :
    List.zip (Cloth.CreateCloth sqrt s oX oY nX nY m c1 c2 c3 c4).distancePairs
        (Cloth.CreateCloth sqrt s oX oY nX nY m c1 c2 c3 c4).distanceParams =
      (intRange 0 nX).flatMap (fun x => (intRange 0 nY).flatMap (fun y =>
        Cloth.structuralAt nX nY (Vec3.length sqrt oX) (Vec3.length sqrt oY)
            (Vec3.length sqrt (Vec3.add oX oY)) (2 / 10) x y ++
          Cloth.bendingAt nX nY (Vec3.length sqrt oX) (Vec3.length sqrt oY) (1 / 10) x y)) := by
  rw [Cloth.CreateCloth_distancePairs, Cloth.CreateCloth_distanceParams, List.zip_map']
  simp only [Prod.mk.eta, List.map_id']

theorem Cloth.filter_structuralAt_other [DecidableEq K] (nX nY : Int) (lX lY lD k1 k : K)
    (hk : k1 ≠ k) (x y : Int) :
    (Cloth.structuralAt nX nY lX lY lD k1 x y).filter (fun e => decide (e.2.y = k)) = [] := by
  unfold Cloth.structuralAt
  by_cases h1 : x < nX - 1 <;> by_cases h2 : y < nY - 1 <;> simp [h1, h2, hk]

theorem Cloth.filter_structuralAt_self [DecidableEq K] (nX nY : Int) (lX lY lD k1 : K)
    (x y : Int) :
    (Cloth.structuralAt nX nY lX lY lD k1 x y).filter (fun e => decide (e.2.y = k1))
      = Cloth.structuralAt nX nY lX lY lD k1 x y := by
  unfold Cloth.structuralAt
  by_cases h1 : x < nX - 1 <;> by_cases h2 : y < nY - 1 <;> simp [h1, h2]

theorem Cloth.filter_bendingAt_other [Field K] [DecidableEq K] (nX nY : Int) (lX lY k2 k : K)
    (hk : k2 ≠ k) (x y : Int) :
    (Cloth.bendingAt nX nY lX lY k2 x y).filter (fun e => decide (e.2.y = k)) = [] := by
  unfold Cloth.bendingAt
  split_ifs <;> simp [hk]

theorem Cloth.filter_bendingAt_self [Field K] [DecidableEq K] (nX nY : Int) (lX lY k2 : K) (x y : Int) :
    (Cloth.bendingAt nX nY lX lY k2 x y).filter (fun e => decide (e.2.y = k2))
      = Cloth.bendingAt nX nY lX lY k2 x y := by
  unfold Cloth.bendingAt
  split_ifs <;> simp

/-- The two stiffness constants `0.2` and `0.1` differ. -/
theorem stiffness_ne [Field K] [CharZero K] : (2 / 10 : K) ≠ 1 / 10 := by norm_num

/-- Number of loop values below the last one. -/
theorem countP_intRange_lt_last (n : Int) (hn : 1 ≤ n) :
    (intRange 0 n).countP (fun i => decide (i < n - 1)) = (n - 1).toNat := by
  have h := countP_intRange_Ico n 0 (n - 1) le_rfl (by omega) (by omega)
  rw [sub_zero] at h
  rw [← h]
  apply List.countP_congr
  intro i hi
  rw [mem_intRange] at hi
  simp only [decide_eq_true_eq]
  omega

/-- Number of interior loop values `0 < i < n - 1`. -/
theorem countP_intRange_interior (n : Int) :
    (intRange 0 n).countP (fun i => decide (0 < i ∧ i < n - 1)) = (n - 2).toNat := by
  by_cases hn : 2 ≤ n
  · have h := countP_intRange_Ico n 1 (n - 1) (by omega) (by omega) (by omega)
    have e : (n - 1 - 1).toNat = (n - 2).toNat := by omega
    rw [← e, ← h]
    apply List.countP_congr
    intro i _
    simp only [decide_eq_true_eq]
    omega
  · have e : (n - 2).toNat = 0 := by omega
    rw [e, List.countP_eq_zero]
    intro i _
    simp only [decide_eq_true_eq]
    omega

theorem countP_intRange_all (n : Int) :
    (intRange 0 n).countP (fun _ => decide True) = n.toNat := by
  simp [intRange_length]

/-- **C6.** For every `numJointX`, `numJointY` and every choice of the four corner flags,
`immovables` is the sub-list of `[0, numJointX - 1, numJointX * (numJointY - 1),
numJointX * numJointY - 1]` selected by `(firstCorner, secondCorner, thirdCorner, fourthCorner)`,
in that order; it is empty when no flag is set, and `[0, 3, 12, 15]` for a `4 × 4` cloth with all
four flags set. -/
theorem Cloth.CreateCloth_corner_pins {K : Type} [Field K] (sqrt : K → K)
    (startPosition offsetX offsetY : Vec3 K) (numJointX numJointY : Int) (massPerParticle : K)
    (firstCorner secondCorner thirdCorner fourthCorner : Bool) :
    (Cloth.CreateCloth sqrt startPosition offsetX offsetY numJointX numJointY massPerParticle
        firstCorner secondCorner thirdCorner fourthCorner).immovables
      = ((List.zip [firstCorner, secondCorner, thirdCorner, fourthCorner]
            [0, numJointX - 1, numJointX * (numJointY - 1), numJointX * numJointY - 1]).filter
          (fun e => e.1)).map (fun e => e.2) ∧
    (Cloth.CreateCloth sqrt startPosition offsetX offsetY numJointX numJointY massPerParticle
        false false false false).immovables = [] ∧
    (Cloth.CreateCloth sqrt startPosition offsetX offsetY 4 4 massPerParticle
        true true true true).immovables = [0, 3, 12, 15] := by
  refine ⟨?_, ?_, ?_⟩
  · rw [Cloth.CreateCloth_immovables]
    cases firstCorner <;> cases secondCorner <;> cases thirdCorner <;> cases fourthCorner <;> rfl
  · rw [Cloth.CreateCloth_immovables]
    rfl
  · rw [Cloth.CreateCloth_immovables]
    decide

/-- The block of the six bending constraints as the claim writes it equals `Cloth.bendingAt`. -/
theorem Cloth.bendingAt_eq [Field K] (nX nY : Int) (lX lY k2 : K) (x y : Int) :
    (if 0 < x ∧ x < nX - 1 ∧ 0 < y ∧ y < nY - 1 then
        ([-1, 0, 1].map (fun (i : Int) =>
          ((⟨(y + i) * nX + x - 1, (y + i) * nX + x + 1⟩ : Int2), (⟨2 * lX, k2⟩ : Vec2 K)))) ++
        ([-1, 0, 1].map (fun (j : Int) =>
          ((⟨(y - 1) * nX + x + j, (y + 1) * nX + x + j⟩ : Int2), (⟨2 * lY, k2⟩ : Vec2 K))))
      else []) = Cloth.bendingAt nX nY lX lY k2 x y := by
  unfold Cloth.bendingAt
  by_cases h : 0 < x ∧ 0 < y ∧ x < nX - 1 ∧ y < nY - 1
  · have h' : 0 < x ∧ x < nX - 1 ∧ 0 < y ∧ y < nY - 1 := ⟨h.1, h.2.2.1, h.2.1, h.2.2.2⟩
    rw [if_pos h, if_pos h']
    simp only [List.map_cons, List.map_nil, List.cons_append, List.nil_append, add_zero,
      mul_comm (2 : K)]
    have e1 : y + -1 = y - 1 := by ring
    have e2 : (y - 1) * nX + x + -1 = (y - 1) * nX + x - 1 := by ring
    have e3 : (y + 1) * nX + x + -1 = (y + 1) * nX + x - 1 := by ring
    rw [e1, e2, e3]
  · have h' : ¬ (0 < x ∧ x < nX - 1 ∧ 0 < y ∧ y < nY - 1) := fun c =>
      h ⟨c.1, c.2.2.1, c.2.1, c.2.2.2⟩
    rw [if_neg h, if_neg h']

/-- **C7.** The constraints of stiffness `0.1` are, in loop order, for each interior node
`(x, y)` (`0 < x < numJointX - 1`, `0 < y < numJointY - 1`) the three pairs
`((y+i)*numJointX + x-1, (y+i)*numJointX + x+1)`, `i = -1, 0, 1`, with rest distance
`2 * |offsetX|`, followed by the three pairs `((y-1)*numJointX + x+j, (y+1)*numJointX + x+j)`,
`j = -1, 0, 1`, with rest distance `2 * |offsetY|`, and nothing for the other nodes.  Their number
is `6 * (numJointX - 2) * (numJointY - 2)` when both joint counts are at least 3, and zero
otherwise. -/
theorem Cloth.CreateCloth_bending_lattice {K : Type} [Field K] [CharZero K] [DecidableEq K]
    (sqrt : K → K) (startPosition offsetX offsetY : Vec3 K) (numJointX numJointY : Int)
    (massPerParticle : K) (firstCorner secondCorner thirdCorner fourthCorner : Bool) :
    (List.zip
        (Cloth.CreateCloth sqrt startPosition offsetX offsetY numJointX numJointY massPerParticle
          firstCorner secondCorner thirdCorner fourthCorner).distancePairs
        (Cloth.CreateCloth sqrt startPosition offsetX offsetY numJointX numJointY massPerParticle
          firstCorner secondCorner thirdCorner fourthCorner).distanceParams).filter
        (fun e => decide (e.2.y = 1 / 10))
      = (intRange 0 numJointX).flatMap (fun x => (intRange 0 numJointY).flatMap (fun y =>
          if 0 < x ∧ x < numJointX - 1 ∧ 0 < y ∧ y < numJointY - 1 then
            ([-1, 0, 1].map (fun (i : Int) =>
              ((⟨(y + i) * numJointX + x - 1, (y + i) * numJointX + x + 1⟩ : Int2),
               (⟨2 * Vec3.length sqrt offsetX, 1 / 10⟩ : Vec2 K)))) ++
            ([-1, 0, 1].map (fun (j : Int) =>
              ((⟨(y - 1) * numJointX + x + j, (y + 1) * numJointX + x + j⟩ : Int2),
               (⟨2 * Vec3.length sqrt offsetY, 1 / 10⟩ : Vec2 K))))
          else [])) ∧
    (((Cloth.CreateCloth sqrt startPosition offsetX offsetY numJointX numJointY massPerParticle
          firstCorner secondCorner thirdCorner fourthCorner).distanceParams.countP
        (fun q => decide (q.y = 1 / 10)) : Nat) : Int)
      = if 3 ≤ numJointX ∧ 3 ≤ numJointY then 6 * (numJointX - 2) * (numJointY - 2) else 0 := by
  have hfilter : ∀ x y : Int,
      (Cloth.structuralAt numJointX numJointY (Vec3.length sqrt offsetX)
          (Vec3.length sqrt offsetY) (Vec3.length sqrt (Vec3.add offsetX offsetY)) (2 / 10) x y ++
        Cloth.bendingAt numJointX numJointY (Vec3.length sqrt offsetX)
          (Vec3.length sqrt offsetY) (1 / 10) x y).filter (fun e => decide (e.2.y = 1 / 10))
      = Cloth.bendingAt numJointX numJointY (Vec3.length sqrt offsetX)
          (Vec3.length sqrt offsetY) (1 / 10) x y := by
    intro x y
    rw [List.filter_append, Cloth.filter_structuralAt_other _ _ _ _ _ _ _ stiffness_ne,
      Cloth.filter_bendingAt_self, List.nil_append]
  have hlist : (List.zip
        (Cloth.CreateCloth sqrt startPosition offsetX offsetY numJointX numJointY massPerParticle
          firstCorner secondCorner thirdCorner fourthCorner).distancePairs
        (Cloth.CreateCloth sqrt startPosition offsetX offsetY numJointX numJointY massPerParticle
          firstCorner secondCorner thirdCorner fourthCorner).distanceParams).filter
        (fun e => decide (e.2.y = 1 / 10))
      = (intRange 0 numJointX).flatMap (fun x => (intRange 0 numJointY).flatMap (fun y =>
          Cloth.bendingAt numJointX numJointY (Vec3.length sqrt offsetX)
            (Vec3.length sqrt offsetY) (1 / 10) x y)) := by
    rw [Cloth.CreateCloth_zip]
    simp only [List.filter_flatMap, hfilter]
  refine ⟨?_, ?_⟩
  · rw [hlist]
    simp only [Cloth.bendingAt_eq]
  · have hcount : (Cloth.CreateCloth sqrt startPosition offsetX offsetY numJointX numJointY
          massPerParticle firstCorner secondCorner thirdCorner fourthCorner).distanceParams.countP
          (fun q => decide (q.y = 1 / 10))
        = (numJointX - 2).toNat * ((numJointY - 2).toNat * 6) := by
      rw [Cloth.CreateCloth_distanceParams, List.countP_map, List.countP_eq_length_filter]
      have := hlist
      rw [Cloth.CreateCloth_zip] at this
      rw [show ((fun q : Vec2 K => decide (q.y = 1 / 10)) ∘ Prod.snd)
          = (fun e : Int2 × Vec2 K => decide (e.2.y = 1 / 10)) from rfl, this]
      have hg := length_flatMap_guard (intRange 0 numJointX) (intRange 0 numJointY)
        (fun x => 0 < x ∧ x < numJointX - 1) (fun y => 0 < y ∧ y < numJointY - 1)
        (fun x y => ([-1, 0, 1].map (fun (i : Int) =>
              ((⟨(y + i) * numJointX + x - 1, (y + i) * numJointX + x + 1⟩ : Int2),
               (⟨2 * Vec3.length sqrt offsetX, 1 / 10⟩ : Vec2 K)))) ++
            ([-1, 0, 1].map (fun (j : Int) =>
              ((⟨(y - 1) * numJointX + x + j, (y + 1) * numJointX + x + j⟩ : Int2),
               (⟨2 * Vec3.length sqrt offsetY, 1 / 10⟩ : Vec2 K))))) 6 (fun _ _ => rfl)
      rw [countP_intRange_interior, countP_intRange_interior] at hg
      rw [← hg]
      congr 1
      apply List.flatMap_congr
      intro x _
      apply List.flatMap_congr
      intro y _
      rw [← Cloth.bendingAt_eq]
      simp only [and_assoc]
    rw [hcount]
    split_ifs with h
    · push_cast
      rw [Int.toNat_of_nonneg (by omega), Int.toNat_of_nonneg (by omega)]
      ring
    · have : (numJointX - 2).toNat = 0 ∨ (numJointY - 2).toNat = 0 := by omega
      rcases this with h0 | h0 <;> simp [h0]

/-- Witness for `Cloth.CreateCloth_bending_lattice`: over the rationals a `4 × 4` cloth has
`6 * 2 * 2 = 24` constraints of stiffness `0.1`, and a `2 × 5` cloth has none. -/
theorem Cloth.CreateCloth_bending_lattice_witness :
    (((Cloth.CreateCloth (fun q : ℚ => q) ⟨0, 0, 0⟩ ⟨1, 0, 0⟩ ⟨0, 1, 0⟩ 4 4 1
        true true true true).distanceParams.countP
        (fun q => decide (q.y = 1 / 10)) : Nat) : Int) = 24 ∧
    (((Cloth.CreateCloth (fun q : ℚ => q) ⟨0, 0, 0⟩ ⟨1, 0, 0⟩ ⟨0, 1, 0⟩ 2 5 1
        false false false false).distanceParams.countP
        (fun q => decide (q.y = 1 / 10)) : Nat) : Int) = 0 :=
  ⟨(Cloth.CreateCloth_bending_lattice (fun q : ℚ => q) ⟨0, 0, 0⟩ ⟨1, 0, 0⟩ ⟨0, 1, 0⟩ 4 4 1
      true true true true).2.trans (by decide),
   (Cloth.CreateCloth_bending_lattice (fun q : ℚ => q) ⟨0, 0, 0⟩ ⟨1, 0, 0⟩ ⟨0, 1, 0⟩ 2 5 1
      false false false false).2.trans (by decide)⟩

/-- The constraints of stiffness `0.2`, zipped, are the structural blocks in loop order. -/
theorem Cloth.CreateCloth_structural [Field K] [CharZero K] [DecidableEq K] (sqrt : K → K)
    (s oX oY : Vec3 K) (nX nY : Int) (m : K) (c1 c2 c3 c4 : Bool) :
    (List.zip (Cloth.CreateCloth sqrt s oX oY nX nY m c1 c2 c3 c4).distancePairs
        (Cloth.CreateCloth sqrt s oX oY nX nY m c1 c2 c3 c4).distanceParams).filter
        (fun e => decide (e.2.y = 2 / 10))
      = (intRange 0 nX).flatMap (fun x => (intRange 0 nY).flatMap (fun y =>
          Cloth.structuralAt nX nY (Vec3.length sqrt oX) (Vec3.length sqrt oY)
            (Vec3.length sqrt (Vec3.add oX oY)) (2 / 10) x y)) := by
  have hfilter : ∀ x y : Int,
      (Cloth.structuralAt nX nY (Vec3.length sqrt oX) (Vec3.length sqrt oY)
          (Vec3.length sqrt (Vec3.add oX oY)) (2 / 10) x y ++
        Cloth.bendingAt nX nY (Vec3.length sqrt oX) (Vec3.length sqrt oY) (1 / 10) x y).filter
          (fun e => decide (e.2.y = 2 / 10))
      = Cloth.structuralAt nX nY (Vec3.length sqrt oX) (Vec3.length sqrt oY)
          (Vec3.length sqrt (Vec3.add oX oY)) (2 / 10) x y := by
    intro x y
    rw [List.filter_append, Cloth.filter_structuralAt_self,
      Cloth.filter_bendingAt_other _ _ _ _ _ _ (Ne.symm stiffness_ne), List.append_nil]
  rw [Cloth.CreateCloth_zip]
  simp only [List.filter_flatMap, hfilter]

/-- Number of entries of the structural blocks over the whole double loop. -/
theorem Cloth.length_structural {K : Type} (nX nY : Int) (lX lY lD k1 : K)
    (hX : 1 ≤ nX) (hY : 1 ≤ nY) :
    ((intRange 0 nX).flatMap (fun x => (intRange 0 nY).flatMap (fun y =>
        Cloth.structuralAt nX nY lX lY lD k1 x y))).length
      = (nX - 1).toNat * nY.toNat + nX.toNat * (nY - 1).toNat
        + (nX - 1).toNat * ((nY - 1).toNat * 2) := by
  have hH := length_flatMap_guard (intRange 0 nX) (intRange 0 nY)
    (fun x => x < nX - 1) (fun _ => True)
    (fun x y => [((⟨y * nX + x, y * nX + x + 1⟩ : Int2), (⟨lX, k1⟩ : Vec2 K))]) 1
    (fun _ _ => rfl)
  have hV := length_flatMap_guard (intRange 0 nX) (intRange 0 nY)
    (fun _ => True) (fun y => y < nY - 1)
    (fun x y => [((⟨y * nX + x, (y + 1) * nX + x⟩ : Int2), (⟨lY, k1⟩ : Vec2 K))]) 1
    (fun _ _ => rfl)
  have hD := length_flatMap_guard (intRange 0 nX) (intRange 0 nY)
    (fun x => x < nX - 1) (fun y => y < nY - 1)
    (fun x y => [((⟨y * nX + x, (y + 1) * nX + x + 1⟩ : Int2), (⟨lD, k1⟩ : Vec2 K)),
       ((⟨y * nX + x + 1, (y + 1) * nX + x⟩ : Int2), (⟨lD, k1⟩ : Vec2 K))]) 2
    (fun _ _ => rfl)
  rw [countP_intRange_lt_last nX hX, countP_intRange_all] at hH
  rw [countP_intRange_lt_last nY hY, countP_intRange_all] at hV
  rw [countP_intRange_lt_last nX hX, countP_intRange_lt_last nY hY] at hD
  simp only [and_true, true_and, mul_one] at hH hV
  unfold Cloth.structuralAt
  rw [length_flatMap_append2, length_flatMap_append2, hH, hV, hD]

/-- Number of faces over the whole double loop. -/
theorem Cloth.length_faces (nX nY : Int) (hX : 1 ≤ nX) (hY : 1 ≤ nY) :
    ((intRange 0 nX).flatMap (fun x => (intRange 0 nY).flatMap (fun y =>
        Cloth.facesAt nX nY x y))).length = (nX - 1).toNat * ((nY - 1).toNat * 2) := by
  have hF := length_flatMap_guard (intRange 0 nX) (intRange 0 nY)
    (fun x => x < nX - 1) (fun y => y < nY - 1)
    (fun x y => [(⟨y * nX + x, y * nX + x + 1, (y + 1) * nX + x⟩ : Int3),
      ⟨y * nX + x + 1, (y + 1) * nX + x, (y + 1) * nX + x + 1⟩]) 2 (fun _ _ => rfl)
  rw [countP_intRange_lt_last nX hX, countP_intRange_lt_last nY hY] at hF
  unfold Cloth.facesAt
  exact hF

/-- **C4.** For `numJointX ≥ 1` and `numJointY ≥ 1` the cloth has `2 * (numJointX - 1) *
(numJointY - 1)` faces and `(numJointX - 1) * numJointY + numJointX * (numJointY - 1) +
2 * (numJointX - 1) * (numJointY - 1)` distance constraints of stiffness `0.2`.  When
`numJointX < 2` or `numJointY < 2` there is no face, and the constraints of stiffness `0.2` are
only the horizontal `(p1, p2)` and vertical `(p1, p3)` ones: no diagonal constraint. -/
theorem Cloth.CreateCloth_topology_counts {K : Type} [Field K] [CharZero K] [DecidableEq K]
    (sqrt : K → K) (startPosition offsetX offsetY : Vec3 K) (numJointX numJointY : Int)
    (massPerParticle : K) (firstCorner secondCorner thirdCorner fourthCorner : Bool)
    (hX : 1 ≤ numJointX) (hY : 1 ≤ numJointY) :
    (((Cloth.CreateCloth sqrt startPosition offsetX offsetY numJointX numJointY massPerParticle
        firstCorner secondCorner thirdCorner fourthCorner).faces.length : Nat) : Int)
      = 2 * (numJointX - 1) * (numJointY - 1) ∧
    (((Cloth.CreateCloth sqrt startPosition offsetX offsetY numJointX numJointY massPerParticle
        firstCorner secondCorner thirdCorner fourthCorner).distanceParams.countP
        (fun q => decide (q.y = 2 / 10)) : Nat) : Int)
      = (numJointX - 1) * numJointY + numJointX * (numJointY - 1)
        + 2 * (numJointX - 1) * (numJointY - 1) ∧
    (numJointX < 2 ∨ numJointY < 2 →
      (Cloth.CreateCloth sqrt startPosition offsetX offsetY numJointX numJointY massPerParticle
        firstCorner secondCorner thirdCorner fourthCorner).faces = [] ∧
      (List.zip
        (Cloth.CreateCloth sqrt startPosition offsetX offsetY numJointX numJointY massPerParticle
          firstCorner secondCorner thirdCorner fourthCorner).distancePairs
        (Cloth.CreateCloth sqrt startPosition offsetX offsetY numJointX numJointY massPerParticle
          firstCorner secondCorner thirdCorner fourthCorner).distanceParams).filter
        (fun e => decide (e.2.y = 2 / 10))
      = (intRange 0 numJointX).flatMap (fun x => (intRange 0 numJointY).flatMap (fun y =>
          (if x < numJointX - 1 then
            [((⟨y * numJointX + x, y * numJointX + x + 1⟩ : Int2),
              (⟨Vec3.length sqrt offsetX, 2 / 10⟩ : Vec2 K))] else []) ++
          (if y < numJointY - 1 then
            [((⟨y * numJointX + x, (y + 1) * numJointX + x⟩ : Int2),
              (⟨Vec3.length sqrt offsetY, 2 / 10⟩ : Vec2 K))] else [])))) := by
  have hfaces : (Cloth.CreateCloth sqrt startPosition offsetX offsetY numJointX numJointY
      massPerParticle firstCorner secondCorner thirdCorner fourthCorner).faces.length
      = (numJointX - 1).toNat * ((numJointY - 1).toNat * 2) := by
    rw [Cloth.CreateCloth_faces, Cloth.length_faces _ _ hX hY]
  refine ⟨?_, ?_, ?_⟩
  · rw [hfaces]
    push_cast
    rw [Int.toNat_of_nonneg (by omega), Int.toNat_of_nonneg (by omega)]
    ring
  · rw [Cloth.CreateCloth_distanceParams, List.countP_map, List.countP_eq_length_filter]
    have h := Cloth.CreateCloth_structural sqrt startPosition offsetX offsetY numJointX numJointY
      massPerParticle firstCorner secondCorner thirdCorner fourthCorner
    rw [Cloth.CreateCloth_zip] at h
    rw [show ((fun q : Vec2 K => decide (q.y = 2 / 10)) ∘ Prod.snd)
        = (fun e : Int2 × Vec2 K => decide (e.2.y = 2 / 10)) from rfl, h,
      Cloth.length_structural _ _ _ _ _ _ hX hY]
    push_cast
    rw [Int.toNat_of_nonneg (by omega), Int.toNat_of_nonneg (by omega),
      Int.toNat_of_nonneg (by omega), Int.toNat_of_nonneg (by omega)]
    ring
  · intro hdeg
    constructor
    · apply List.eq_nil_of_length_eq_zero
      rw [hfaces]
      have : (numJointX - 1).toNat = 0 ∨ (numJointY - 1).toNat = 0 := by omega
      rcases this with h0 | h0 <;> simp [h0]
    · rw [Cloth.CreateCloth_structural]
      apply List.flatMap_congr
      intro x hx
      apply List.flatMap_congr
      intro y hy
      rw [mem_intRange] at hx hy
      have hno : ¬ (x < numJointX - 1 ∧ y < numJointY - 1) := by omega
      unfold Cloth.structuralAt
      rw [if_neg hno, List.append_nil]

/-- Witness for `Cloth.CreateCloth_topology_counts`: a `4 × 4` cloth has 18 faces and
`12 + 12 + 18 = 42` constraints of stiffness `0.2`. -/
theorem Cloth.CreateCloth_topology_counts_witness :
    ((1 : Int) ≤ 4 ∧ (1 : Int) ≤ 4) ∧
    (((Cloth.CreateCloth Real.sqrt ⟨0, 0, 0⟩ ⟨1, 0, 0⟩ ⟨0, 1, 0⟩ 4 4 1
        true true true true).faces.length : Nat) : Int) = 18 ∧
    (((Cloth.CreateCloth Real.sqrt ⟨0, 0, 0⟩ ⟨1, 0, 0⟩ ⟨0, 1, 0⟩ 4 4 1
        true true true true).distanceParams.countP
        (fun q => decide (q.y = 2 / 10)) : Nat) : Int) = 12 + 12 + 18 :=
  ⟨⟨by decide, by decide⟩,
    (Cloth.CreateCloth_topology_counts Real.sqrt ⟨0, 0, 0⟩ ⟨1, 0, 0⟩ ⟨0, 1, 0⟩ 4 4 1
      true true true true (by decide) (by decide)).1.trans (by norm_num),
    (Cloth.CreateCloth_topology_counts Real.sqrt ⟨0, 0, 0⟩ ⟨1, 0, 0⟩ ⟨0, 1, 0⟩ 4 4 1
      true true true true (by decide) (by decide)).2.1.trans (by norm_num)⟩

/-- The particle pushed in loop iteration `(x, y)` is stored at index `x * numJointY + y`. -/
theorem Cloth.CreateCloth_positions_getElem? [Field K] (sqrt : K → K) (s oX oY : Vec3 K)
    (nX nY : Int) (m : K) (c1 c2 c3 c4 : Bool) (x y : Nat) (hx : (x : Int) < nX)
    (hy : (y : Int) < nY) :
    (Cloth.CreateCloth sqrt s oX oY nX nY m c1 c2 c3 c4).positions[x * nY.toNat + y]?
      = some (Vec3.add (Vec3.add s (Vec3.smul (((y : Nat) : Int) : K) oX))
          (Vec3.smul (((x : Nat) : Int) : K) oY)) := by
  rw [Cloth.CreateCloth_positions,
    getElem?_flatMap_intRange nY.toNat _ (fun i => by simp [intRange_length]) nX x y hx
      (by omega)]
  simp only [List.getElem?_map, intRange_getElem?]
  rw [if_pos (by omega)]
  simp

/-- On a square cloth the particle addressed as node `(x, y)`, index `y * n + x`, sits at
`startPosition + x * offsetX + y * offsetY`. -/
theorem Cloth.CreateCloth_square_node [Field K] (sqrt : K → K) (s oX oY : Vec3 K)
    (n : Int) (m : K) (c1 c2 c3 c4 : Bool) (x y : Int) (hx0 : 0 ≤ x) (hx : x < n)
    (hy0 : 0 ≤ y) (hy : y < n) :
    (Cloth.CreateCloth sqrt s oX oY n n m c1 c2 c3 c4).positions[(y * n + x).toNat]?
      = some (Vec3.add (Vec3.add s (Vec3.smul (x : K) oX)) (Vec3.smul (y : K) oY)) := by
  have e : y * n + x = ((y.toNat * n.toNat + x.toNat : Nat) : Int) := by
    push_cast
    rw [Int.toNat_of_nonneg hy0, Int.toNat_of_nonneg hx0, Int.toNat_of_nonneg (by omega)]
  rw [e, Int.toNat_natCast,
    Cloth.CreateCloth_positions_getElem? sqrt s oX oY n n m c1 c2 c3 c4 y.toNat x.toNat
      (by omega) (by omega),
    Int.toNat_of_nonneg hy0, Int.toNat_of_nonneg hx0]

/-- Squared distance of two lattice points, in terms of the offsets. -/
theorem Vec3.dist_grid (s oX oY : Vec3 ℝ) (a b a' b' : ℝ) :
    Vec3.dist Real.sqrt (Vec3.add (Vec3.add s (Vec3.smul a oX)) (Vec3.smul b oY))
        (Vec3.add (Vec3.add s (Vec3.smul a' oX)) (Vec3.smul b' oY))
      = Real.sqrt ((a - a') ^ 2 * Vec3.dot oX oX + 2 * (a - a') * (b - b') * Vec3.dot oX oY
          + (b - b') ^ 2 * Vec3.dot oY oY) := by
  unfold Vec3.dist Vec3.length
  congr 1
  simp only [Vec3.dot, Vec3.sub, Vec3.add, Vec3.smul]
  ring

theorem sqrt_mul_two (d : ℝ) : Real.sqrt d * 2 = Real.sqrt (4 * d) := by
  have h4 : Real.sqrt 4 = 2 := by
    rw [show (4 : ℝ) = 2 * 2 by norm_num]
    exact Real.sqrt_mul_self (by norm_num)
  rw [Real.sqrt_mul (by norm_num : (0 : ℝ) ≤ 4), h4]
  ring

/-- On a square cloth, a constraint joining nodes `(x1, y1)` and `(x2, y2)` whose stored rest
distance is the length of `(x1 - x2) * offsetX + (y1 - y2) * offsetY` stores the distance of its
two particles. -/
theorem Cloth.square_pair_ok (s oX oY : Vec3 ℝ) (n : Int) (m : ℝ) (c1 c2 c3 c4 : Bool)
    (x1 y1 x2 y2 : Int) (h1 : 0 ≤ x1 ∧ x1 < n ∧ 0 ≤ y1 ∧ y1 < n)
    (h2 : 0 ≤ x2 ∧ x2 < n ∧ 0 ≤ y2 ∧ y2 < n) (p : Int2) (q : Vec2 ℝ)
    (hp : p = ⟨y1 * n + x1, y2 * n + x2⟩)
    (hq : q.x = Real.sqrt (((x1 : ℝ) - x2) ^ 2 * Vec3.dot oX oX
      + 2 * ((x1 : ℝ) - x2) * ((y1 : ℝ) - y2) * Vec3.dot oX oY
      + ((y1 : ℝ) - y2) ^ 2 * Vec3.dot oY oY)) :
    ∃ a b : Vec3 ℝ, 0 ≤ p.x ∧ 0 ≤ p.y ∧
      (Cloth.CreateCloth Real.sqrt s oX oY n n m c1 c2 c3 c4).positions[p.x.toNat]? = some a ∧
      (Cloth.CreateCloth Real.sqrt s oX oY n n m c1 c2 c3 c4).positions[p.y.toNat]? = some b ∧
      q.x = Vec3.dist Real.sqrt a b := by
  subst hp
  have hn : 0 ≤ n := by omega
  refine ⟨_, _, ?_, ?_,
    Cloth.CreateCloth_square_node Real.sqrt s oX oY n m c1 c2 c3 c4 x1 y1 h1.1 h1.2.1 h1.2.2.1
      h1.2.2.2,
    Cloth.CreateCloth_square_node Real.sqrt s oX oY n m c1 c2 c3 c4 x2 y2 h2.1 h2.2.1 h2.2.2.1
      h2.2.2.2, ?_⟩
  · show 0 ≤ y1 * n + x1
    have := mul_nonneg h1.2.2.1 hn
    omega
  · show 0 ≤ y2 * n + x2
    have := mul_nonneg h2.2.2.1 hn
    omega
  · rw [hq, Vec3.dist_grid]

/-- On a square cloth (`numJointX = numJointY`) with orthogonal offsets, every distance
constraint stores the Euclidean distance of the two particles it joins. -/
theorem Cloth.CreateCloth_rest_distance_square (s oX oY : Vec3 ℝ) (n : Int) (m : ℝ)
    (c1 c2 c3 c4 : Bool) (horth : Vec3.dot oX oY = 0) :
    ∀ e ∈ List.zip (Cloth.CreateCloth Real.sqrt s oX oY n n m c1 c2 c3 c4).distancePairs
        (Cloth.CreateCloth Real.sqrt s oX oY n n m c1 c2 c3 c4).distanceParams,
      ∃ a b : Vec3 ℝ, 0 ≤ e.1.x ∧ 0 ≤ e.1.y ∧
        (Cloth.CreateCloth Real.sqrt s oX oY n n m c1 c2 c3 c4).positions[e.1.x.toNat]?
          = some a ∧
        (Cloth.CreateCloth Real.sqrt s oX oY n n m c1 c2 c3 c4).positions[e.1.y.toNat]?
          = some b ∧
        e.2.x = Vec3.dist Real.sqrt a b := by
  intro e he
  rw [Cloth.CreateCloth_zip] at he
  simp only [List.mem_flatMap, List.mem_append] at he
  obtain ⟨x, hx, y, hy, he⟩ := he
  rw [mem_intRange] at hx hy
  have hadd : Vec3.dot (Vec3.add oX oY) (Vec3.add oX oY)
      = Vec3.dot oX oX + 2 * Vec3.dot oX oY + Vec3.dot oY oY := by
    simp only [Vec3.dot, Vec3.add]
    ring
  rcases he with he | he
  · unfold Cloth.structuralAt at he
    simp only [List.mem_append] at he
    rcases he with (he | he) | he
    · split_ifs at he with hg
      · simp only [List.mem_singleton] at he
        subst he
        refine Cloth.square_pair_ok s oX oY n m c1 c2 c3 c4 x y (x + 1) y
          ⟨by omega, by omega, by omega, by omega⟩ ⟨by omega, by omega, by omega, by omega⟩
          _ _ (by rw [Int2.mk.injEq]; constructor <;> ring) ?_
        show Real.sqrt _ = Real.sqrt _
        congr 1
        push_cast
        ring
      · simp at he
    · split_ifs at he with hg
      · simp only [List.mem_singleton] at he
        subst he
        refine Cloth.square_pair_ok s oX oY n m c1 c2 c3 c4 x y x (y + 1)
          ⟨by omega, by omega, by omega, by omega⟩ ⟨by omega, by omega, by omega, by omega⟩
          _ _ (by rw [Int2.mk.injEq]; constructor <;> ring) ?_
        show Real.sqrt _ = Real.sqrt _
        congr 1
        push_cast
        ring
      · simp at he
    · split_ifs at he with hg
      · simp only [List.mem_cons, List.mem_singleton, List.not_mem_nil, or_false] at he
        rcases he with he | he
        · subst he
          refine Cloth.square_pair_ok s oX oY n m c1 c2 c3 c4 x y (x + 1) (y + 1)
            ⟨by omega, by omega, by omega, by omega⟩ ⟨by omega, by omega, by omega, by omega⟩
            _ _ (by rw [Int2.mk.injEq]; constructor <;> ring) ?_
          show Real.sqrt _ = Real.sqrt _
          congr 1
          rw [hadd]
          push_cast
          ring
        · subst he
          refine Cloth.square_pair_ok s oX oY n m c1 c2 c3 c4 (x + 1) y x (y + 1)
            ⟨by omega, by omega, by omega, by omega⟩ ⟨by omega, by omega, by omega, by omega⟩
            _ _ (by rw [Int2.mk.injEq]; constructor <;> ring) ?_
          show Real.sqrt _ = Real.sqrt _
          congr 1
          rw [hadd, horth]
          push_cast
          ring
      · simp at he
  · unfold Cloth.bendingAt at he
    split_ifs at he with hg
    · simp only [List.mem_cons, List.mem_singleton, List.not_mem_nil, or_false] at he
      rcases he with he | he | he | he | he | he
      · subst he
        refine Cloth.square_pair_ok s oX oY n m c1 c2 c3 c4 (x - 1) (y - 1) (x + 1) (y - 1)
          ⟨by omega, by omega, by omega, by omega⟩ ⟨by omega, by omega, by omega, by omega⟩
          _ _ (by rw [Int2.mk.injEq]; constructor <;> ring) ?_
        show Real.sqrt _ * 2 = Real.sqrt _
        rw [sqrt_mul_two]
        congr 1
        push_cast
        ring
      · subst he
        refine Cloth.square_pair_ok s oX oY n m c1 c2 c3 c4 (x - 1) y (x + 1) y
          ⟨by omega, by omega, by omega, by omega⟩ ⟨by omega, by omega, by omega, by omega⟩
          _ _ (by rw [Int2.mk.injEq]; constructor <;> ring) ?_
        show Real.sqrt _ * 2 = Real.sqrt _
        rw [sqrt_mul_two]
        congr 1
        push_cast
        ring
      · subst he
        refine Cloth.square_pair_ok s oX oY n m c1 c2 c3 c4 (x - 1) (y + 1) (x + 1) (y + 1)
          ⟨by omega, by omega, by omega, by omega⟩ ⟨by omega, by omega, by omega, by omega⟩
          _ _ (by rw [Int2.mk.injEq]; constructor <;> ring) ?_
        show Real.sqrt _ * 2 = Real.sqrt _
        rw [sqrt_mul_two]
        congr 1
        push_cast
        ring
      · subst he
        refine Cloth.square_pair_ok s oX oY n m c1 c2 c3 c4 (x - 1) (y - 1) (x - 1) (y + 1)
          ⟨by omega, by omega, by omega, by omega⟩ ⟨by omega, by omega, by omega, by omega⟩
          _ _ (by rw [Int2.mk.injEq]; constructor <;> ring) ?_
        show Real.sqrt _ * 2 = Real.sqrt _
        rw [sqrt_mul_two]
        congr 1
        push_cast
        ring
      · subst he
        refine Cloth.square_pair_ok s oX oY n m c1 c2 c3 c4 x (y - 1) x (y + 1)
          ⟨by omega, by omega, by omega, by omega⟩ ⟨by omega, by omega, by omega, by omega⟩
          _ _ (by rw [Int2.mk.injEq]; constructor <;> ring) ?_
        show Real.sqrt _ * 2 = Real.sqrt _
        rw [sqrt_mul_two]
        congr 1
        push_cast
        ring
      · subst he
        refine Cloth.square_pair_ok s oX oY n m c1 c2 c3 c4 (x + 1) (y - 1) (x + 1) (y + 1)
          ⟨by omega, by omega, by omega, by omega⟩ ⟨by omega, by omega, by omega, by omega⟩
          _ _ (by rw [Int2.mk.injEq]; constructor <;> ring) ?_
        show Real.sqrt _ * 2 = Real.sqrt _
        rw [sqrt_mul_two]
        congr 1
        push_cast
        ring
    · simp at he

theorem intRange_zero_two : intRange 0 2 = [0, 1] := by decide

/-- **C1 (the code at a failing input).** A `2 × 3` cloth with unit orthogonal offsets: the
constraint of index 1 joins particles 0 and 2 and stores the rest distance `|offsetY| = 1`, while
the two particles sit at `(0,0,0)` and `(2,0,0)`, at distance 2. -/
theorem Cloth.CreateCloth_rest_distance_mismatch :
    (Cloth.CreateCloth Real.sqrt ⟨0, 0, 0⟩ ⟨1, 0, 0⟩ ⟨0, 1, 0⟩ 2 3 1
      false false false false).distancePairs[1]? = some ⟨0, 2⟩ ∧
    (Cloth.CreateCloth Real.sqrt ⟨0, 0, 0⟩ ⟨1, 0, 0⟩ ⟨0, 1, 0⟩ 2 3 1
      false false false false).distanceParams[1]? = some ⟨1, 2 / 10⟩ ∧
    (Cloth.CreateCloth Real.sqrt ⟨0, 0, 0⟩ ⟨1, 0, 0⟩ ⟨0, 1, 0⟩ 2 3 1
      false false false false).positions[0]? = some ⟨0, 0, 0⟩ ∧
    (Cloth.CreateCloth Real.sqrt ⟨0, 0, 0⟩ ⟨1, 0, 0⟩ ⟨0, 1, 0⟩ 2 3 1
      false false false false).positions[2]? = some ⟨2, 0, 0⟩ ∧
    Vec3.dist Real.sqrt ⟨0, 0, 0⟩ ⟨2, 0, 0⟩ = 2 ∧ (1 : ℝ) ≠ 2 := by
  refine ⟨?_, ?_, ?_, ?_, ?_, by norm_num⟩
  · rw [Cloth.CreateCloth_distancePairs]
    simp [intRange_zero_two, intRange_zero_three, Cloth.structuralAt, Cloth.bendingAt]
  · rw [Cloth.CreateCloth_distanceParams]
    simp [intRange_zero_two, intRange_zero_three, Cloth.structuralAt, Cloth.bendingAt,
      Vec3.length, Vec3.dot]
  · rw [Cloth.CreateCloth_positions]
    simp [intRange_zero_two, intRange_zero_three, Vec3.add, Vec3.smul]
  · rw [Cloth.CreateCloth_positions]
    simp [intRange_zero_two, intRange_zero_three, Vec3.add, Vec3.smul]
  · have h : Vec3.dot (Vec3.sub (⟨0, 0, 0⟩ : Vec3 ℝ) ⟨2, 0, 0⟩) (Vec3.sub ⟨0, 0, 0⟩ ⟨2, 0, 0⟩)
        = 2 * 2 := by
      simp only [Vec3.dot, Vec3.sub]
      norm_num
    unfold Vec3.dist Vec3.length
    rw [h, Real.sqrt_mul_self (by norm_num)]

/-- A second mismatch, on a square `2 × 2` cloth with offsets `(7,0,0)` and `(2,12,0)` that are
not orthogonal: the constraint of index 3 joins particles 1 and 2 (the diagonal `(p2, p3)`) and
stores `|offsetX + offsetY| = 15`, while the particles are at distance `|offsetX - offsetY| = 13`. -/
theorem Cloth.CreateCloth_antidiagonal_mismatch :
    (Cloth.CreateCloth Real.sqrt ⟨0, 0, 0⟩ ⟨7, 0, 0⟩ ⟨2, 12, 0⟩ 2 2 1
      false false false false).distancePairs[3]? = some ⟨1, 2⟩ ∧
    (Cloth.CreateCloth Real.sqrt ⟨0, 0, 0⟩ ⟨7, 0, 0⟩ ⟨2, 12, 0⟩ 2 2 1
      false false false false).distanceParams[3]? = some ⟨15, 2 / 10⟩ ∧
    (Cloth.CreateCloth Real.sqrt ⟨0, 0, 0⟩ ⟨7, 0, 0⟩ ⟨2, 12, 0⟩ 2 2 1
      false false false false).positions[1]? = some ⟨7, 0, 0⟩ ∧
    (Cloth.CreateCloth Real.sqrt ⟨0, 0, 0⟩ ⟨7, 0, 0⟩ ⟨2, 12, 0⟩ 2 2 1
      false false false false).positions[2]? = some ⟨2, 12, 0⟩ ∧
    Vec3.dist Real.sqrt ⟨7, 0, 0⟩ ⟨2, 12, 0⟩ = 13 ∧ (15 : ℝ) ≠ 13 := by
  have h15 : Real.sqrt (15 * 15) = 15 := Real.sqrt_mul_self (by norm_num)
  refine ⟨?_, ?_, ?_, ?_, ?_, by norm_num⟩
  · rw [Cloth.CreateCloth_distancePairs]
    simp [intRange_zero_two, Cloth.structuralAt, Cloth.bendingAt]
  · rw [Cloth.CreateCloth_distanceParams]
    have e : Vec3.length Real.sqrt (Vec3.add (⟨7, 0, 0⟩ : Vec3 ℝ) ⟨2, 12, 0⟩) = 15 := by
      have h : Vec3.dot (Vec3.add (⟨7, 0, 0⟩ : Vec3 ℝ) ⟨2, 12, 0⟩)
          (Vec3.add ⟨7, 0, 0⟩ ⟨2, 12, 0⟩) = 15 * 15 := by
        simp only [Vec3.dot, Vec3.add]
        norm_num
      unfold Vec3.length
      rw [h, h15]
    simp [intRange_zero_two, Cloth.structuralAt, Cloth.bendingAt, e]
  · rw [Cloth.CreateCloth_positions]
    simp [intRange_zero_two, Vec3.add, Vec3.smul]
  · rw [Cloth.CreateCloth_positions]
    simp [intRange_zero_two, Vec3.add, Vec3.smul]
  · have h : Vec3.dot (Vec3.sub (⟨7, 0, 0⟩ : Vec3 ℝ) ⟨2, 12, 0⟩) (Vec3.sub ⟨7, 0, 0⟩ ⟨2, 12, 0⟩)
        = 13 * 13 := by
      simp only [Vec3.dot, Vec3.sub]
      norm_num
    unfold Vec3.dist Vec3.length
    rw [h, Real.sqrt_mul_self (by norm_num)]

/-- The cloth has `numJointX * numJointY` positions. -/
theorem Cloth.CreateCloth_positions_length [Field K] (sqrt : K → K) (s oX oY : Vec3 K)
    (nX nY : Int) (m : K) (c1 c2 c3 c4 : Bool) :
    (Cloth.CreateCloth sqrt s oX oY nX nY m c1 c2 c3 c4).positions.length
      = nX.toNat * nY.toNat := by
  rw [Cloth.CreateCloth_positions]
  exact length_flatMap_intRange nY.toNat _ (fun i => by simp [intRange_length]) nX

/-- **C16 (the code at a failing input).** A `2 × 3` cloth with unit orthogonal offsets has
`2 * 3 = 6` positions, but the particle stored at index `y * numJointX + x = 2` of node
`(x, y) = (0, 1)` sits at `(2, 0, 0)`, not at
`startPosition + 0 * offsetX + 1 * offsetY = (0, 1, 0)`. -/
theorem Cloth.CreateCloth_node_position_mismatch :
    (Cloth.CreateCloth Real.sqrt ⟨0, 0, 0⟩ ⟨1, 0, 0⟩ ⟨0, 1, 0⟩ 2 3 1
      false false false false).positions.length = 6 ∧
    (Cloth.CreateCloth Real.sqrt ⟨0, 0, 0⟩ ⟨1, 0, 0⟩ ⟨0, 1, 0⟩ 2 3 1
      false false false false).positions[((1 : Int) * 2 + 0).toNat]? = some ⟨2, 0, 0⟩ ∧
    Vec3.add (Vec3.add (⟨0, 0, 0⟩ : Vec3 ℝ) (Vec3.smul ((0 : Int) : ℝ) ⟨1, 0, 0⟩))
      (Vec3.smul ((1 : Int) : ℝ) ⟨0, 1, 0⟩) = ⟨0, 1, 0⟩ ∧
    (⟨2, 0, 0⟩ : Vec3 ℝ) ≠ ⟨0, 1, 0⟩ := by
  refine ⟨?_, ?_, ?_, ?_⟩
  · rw [Cloth.CreateCloth_positions_length]
    decide
  · have h := Cloth.CreateCloth_positions_getElem? Real.sqrt (⟨0, 0, 0⟩ : Vec3 ℝ) ⟨1, 0, 0⟩
      ⟨0, 1, 0⟩ 2 3 1 false false false false 0 2 (by decide) (by decide)
    have e : ((1 : Int) * 2 + 0).toNat = 0 * (3 : Int).toNat + 2 := by decide
    rw [e, h]
    simp [Vec3.add, Vec3.smul]
  · simp [Vec3.add, Vec3.smul]
  · simp [Vec3.mk.injEq]

/-- **C17 (the code at a failing input).** On a `2 × 3` cloth with unit orthogonal offsets and
all four flags set, `immovables` is `[0, 1, 4, 5]`; the particle of index `numJointX - 1 = 1`
sits at `(1, 0, 0)`, which is none of the four corners
`startPosition + a * offsetX + b * offsetY`, `a ∈ {0, 2}`, `b ∈ {0, 1}`, of the lattice. -/
theorem Cloth.CreateCloth_pin_not_corner :
    (Cloth.CreateCloth Real.sqrt ⟨0, 0, 0⟩ ⟨1, 0, 0⟩ ⟨0, 1, 0⟩ 2 3 1
      true true true true).immovables = [0, 1, 4, 5] ∧
    (Cloth.CreateCloth Real.sqrt ⟨0, 0, 0⟩ ⟨1, 0, 0⟩ ⟨0, 1, 0⟩ 2 3 1
      true true true true).positions[((2 : Int) - 1).toNat]? = some ⟨1, 0, 0⟩ ∧
    ∀ a ∈ [(0 : Int), 3 - 1], ∀ b ∈ [(0 : Int), 2 - 1],
      Vec3.add (Vec3.add (⟨0, 0, 0⟩ : Vec3 ℝ) (Vec3.smul (a : ℝ) ⟨1, 0, 0⟩))
        (Vec3.smul (b : ℝ) ⟨0, 1, 0⟩) ≠ ⟨1, 0, 0⟩ := by
  refine ⟨?_, ?_, ?_⟩
  · rw [Cloth.CreateCloth_immovables]
    decide
  · have h := Cloth.CreateCloth_positions_getElem? Real.sqrt (⟨0, 0, 0⟩ : Vec3 ℝ) ⟨1, 0, 0⟩
      ⟨0, 1, 0⟩ 2 3 1 true true true true 0 1 (by decide) (by decide)
    have e : ((2 : Int) - 1).toNat = 0 * (3 : Int).toNat + 1 := by decide
    rw [e, h]
    simp [Vec3.add, Vec3.smul]
  · intro a ha b hb
    simp only [List.mem_cons, List.mem_singleton, List.not_mem_nil, or_false] at ha hb
    rcases ha with rfl | rfl <;> rcases hb with rfl | rfl <;>
      simp [Vec3.add, Vec3.smul, Vec3.mk.injEq]

/-- Row `y` of the grid, `0 ≤ y < numJointY`, occupies the indices from `y * numJointX` up to
`y * numJointX + numJointX ≤ numJointX * numJointY`. -/
theorem cloth_row_bounds (nX nY y : Int) (hX : 0 ≤ nX) (hy0 : 0 ≤ y) (hy : y < nY) :
    0 ≤ y * nX ∧ y * nX + nX ≤ nX * nY := by
  constructor
  · exact mul_nonneg hy0 hX
  · have h1 : (y + 1) * nX ≤ nY * nX := mul_le_mul_of_nonneg_right (by omega) hX
    have e1 : (y + 1) * nX = y * nX + nX := by ring
    have e2 : nY * nX = nX * nY := by ring
    omega

/-- **C18.** For `numJointX ≥ 1`, `numJointY ≥ 1` and every choice of corner flags, there are
`numJointX * numJointY` positions and every index the cloth builder emits lies in
`[0, numJointX * numJointY)`: both components of every distance pair, which are different; the
three components of every face, which are pairwise different; and every entry of `immovables`.
`distancePairs` and `distanceParams` have the same length. -/
theorem Cloth.CreateCloth_indices_valid {K : Type} [Field K] (sqrt : K → K)
    (startPosition offsetX offsetY : Vec3 K) (numJointX numJointY : Int) (massPerParticle : K)
    (firstCorner secondCorner thirdCorner fourthCorner : Bool)
    (hX : 1 ≤ numJointX) (hY : 1 ≤ numJointY) :
    (((Cloth.CreateCloth sqrt startPosition offsetX offsetY numJointX numJointY massPerParticle
        firstCorner secondCorner thirdCorner fourthCorner).positions.length : Nat) : Int)
      = numJointX * numJointY ∧
    (∀ p ∈ (Cloth.CreateCloth sqrt startPosition offsetX offsetY numJointX numJointY
        massPerParticle firstCorner secondCorner thirdCorner fourthCorner).distancePairs,
      (0 ≤ p.x ∧ p.x < numJointX * numJointY) ∧ (0 ≤ p.y ∧ p.y < numJointX * numJointY) ∧
      p.x ≠ p.y) ∧
    (∀ f ∈ (Cloth.CreateCloth sqrt startPosition offsetX offsetY numJointX numJointY
        massPerParticle firstCorner secondCorner thirdCorner fourthCorner).faces,
      (0 ≤ f.x ∧ f.x < numJointX * numJointY) ∧ (0 ≤ f.y ∧ f.y < numJointX * numJointY) ∧
      (0 ≤ f.z ∧ f.z < numJointX * numJointY) ∧ f.x ≠ f.y ∧ f.x ≠ f.z ∧ f.y ≠ f.z) ∧
    (∀ i ∈ (Cloth.CreateCloth sqrt startPosition offsetX offsetY numJointX numJointY
        massPerParticle firstCorner secondCorner thirdCorner fourthCorner).immovables,
      0 ≤ i ∧ i < numJointX * numJointY) ∧
    (Cloth.CreateCloth sqrt startPosition offsetX offsetY numJointX numJointY massPerParticle
        firstCorner secondCorner thirdCorner fourthCorner).distancePairs.length
      = (Cloth.CreateCloth sqrt startPosition offsetX offsetY numJointX numJointY massPerParticle
        firstCorner secondCorner thirdCorner fourthCorner).distanceParams.length := by
  have hXn : 0 ≤ numJointX := by omega
  refine ⟨?_, ?_, ?_, ?_, ?_⟩
  · rw [Cloth.CreateCloth_positions_length]
    push_cast
    rw [Int.toNat_of_nonneg hXn, Int.toNat_of_nonneg (by omega)]
  · intro p hp
    rw [Cloth.CreateCloth_distancePairs] at hp
    simp only [List.mem_map, List.mem_flatMap, List.mem_append] at hp
    obtain ⟨e, ⟨x, hx, y, hy, he⟩, rfl⟩ := hp
    rw [mem_intRange] at hx hy
    have r0 := cloth_row_bounds numJointX numJointY y hXn hy.1 hy.2
    have e1 : (y + 1) * numJointX = y * numJointX + numJointX := by ring
    have e2 : (y - 1) * numJointX = y * numJointX - numJointX := by ring
    rcases he with he | he
    · unfold Cloth.structuralAt at he
      simp only [List.mem_append] at he
      rcases he with (he | he) | he
      · split_ifs at he with hg
        · simp only [List.mem_singleton] at he
          subst he
          simp only
          omega
        · simp at he
      · split_ifs at he with hg
        · have r1 := cloth_row_bounds numJointX numJointY (y + 1) hXn (by omega) (by omega)
          simp only [List.mem_singleton] at he
          subst he
          simp only
          omega
        · simp at he
      · split_ifs at he with hg
        · have r1 := cloth_row_bounds numJointX numJointY (y + 1) hXn (by omega) (by omega)
          simp only [List.mem_cons, List.mem_singleton, List.not_mem_nil, or_false] at he
          rcases he with he | he <;> subst he <;> simp only <;> omega
        · simp at he
    · unfold Cloth.bendingAt at he
      split_ifs at he with hg
      · have r1 := cloth_row_bounds numJointX numJointY (y + 1) hXn (by omega) (by omega)
        have r2 := cloth_row_bounds numJointX numJointY (y - 1) hXn (by omega) (by omega)
        simp only [List.mem_cons, List.mem_singleton, List.not_mem_nil, or_false] at he
        rcases he with he | he | he | he | he | he <;> subst he <;> simp only <;> omega
      · simp at he
  · intro f hf
    rw [Cloth.CreateCloth_faces] at hf
    simp only [List.mem_flatMap] at hf
    obtain ⟨x, hx, y, hy, he⟩ := hf
    rw [mem_intRange] at hx hy
    have r0 := cloth_row_bounds numJointX numJointY y hXn hy.1 hy.2
    have e1 : (y + 1) * numJointX = y * numJointX + numJointX := by ring
    unfold Cloth.facesAt at he
    split_ifs at he with hg
    · have r1 := cloth_row_bounds numJointX numJointY (y + 1) hXn (by omega) (by omega)
      simp only [List.mem_cons, List.mem_singleton, List.not_mem_nil, or_false] at he
      rcases he with he | he <;> subst he <;> simp only <;> omega
    · simp at he
  · intro i hi
    rw [Cloth.CreateCloth_immovables] at hi
    have r0 := cloth_row_bounds numJointX numJointY 0 hXn le_rfl (by omega)
    have r1 := cloth_row_bounds numJointX numJointY (numJointY - 1) hXn (by omega) (by omega)
    have e0 : (0 : Int) * numJointX = 0 := by ring
    have e1 : (numJointY - 1) * numJointX = numJointX * (numJointY - 1) := by ring
    simp only [List.mem_append] at hi
    rcases hi with ((hi | hi) | hi) | hi <;> split_ifs at hi <;>
      simp only [List.mem_singleton, List.not_mem_nil] at hi <;> subst hi <;> omega
  · rw [Cloth.CreateCloth_distancePairs, Cloth.CreateCloth_distanceParams, List.length_map,
      List.length_map]

/-- Witness for `Cloth.CreateCloth_indices_valid`: a `3 × 4` cloth with all four flags set. -/
theorem Cloth.CreateCloth_indices_valid_witness :
    ((1 : Int) ≤ 3 ∧ (1 : Int) ≤ 4) ∧
    (((Cloth.CreateCloth Real.sqrt ⟨0, 0, 0⟩ ⟨1, 0, 0⟩ ⟨0, 1, 0⟩ 3 4 1
        true true true true).positions.length : Nat) : Int) = 3 * 4 ∧
    (∀ p ∈ (Cloth.CreateCloth Real.sqrt ⟨0, 0, 0⟩ ⟨1, 0, 0⟩ ⟨0, 1, 0⟩ 3 4 1
        true true true true).distancePairs,
      (0 ≤ p.x ∧ p.x < 3 * 4) ∧ (0 ≤ p.y ∧ p.y < 3 * 4) ∧ p.x ≠ p.y) ∧
    (∀ i ∈ (Cloth.CreateCloth Real.sqrt ⟨0, 0, 0⟩ ⟨1, 0, 0⟩ ⟨0, 1, 0⟩ 3 4 1
        true true true true).immovables, 0 ≤ i ∧ i < 3 * 4) :=
  ⟨⟨by decide, by decide⟩,
    (Cloth.CreateCloth_indices_valid Real.sqrt ⟨0, 0, 0⟩ ⟨1, 0, 0⟩ ⟨0, 1, 0⟩ 3 4 1
      true true true true (by decide) (by decide)).1,
    (Cloth.CreateCloth_indices_valid Real.sqrt ⟨0, 0, 0⟩ ⟨1, 0, 0⟩ ⟨0, 1, 0⟩ 3 4 1
      true true true true (by decide) (by decide)).2.1,
    (Cloth.CreateCloth_indices_valid Real.sqrt ⟨0, 0, 0⟩ ⟨1, 0, 0⟩ ⟨0, 1, 0⟩ 3 4 1
      true true true true (by decide) (by decide)).2.2.2.1⟩

end ClothLemmas

/-! ## Plane: the orthonormal basis -/

section PlaneLemmas

variable {K : Type}

/-- The value of `copysign(1, z)`: `1` for `z ≥ 0` and `-1` for `z < 0`. -/
theorem copysign_one_cases [LinearOrderedField K] (z : K) :
    (0 ≤ z ∧ copysign (1 : K) z = 1) ∨ (z < 0 ∧ copysign (1 : K) z = -1) := by
  unfold copysign
  by_cases hz : z < 0
  · right
    simp [hz]
  · left
    simp [hz, not_lt.mp hz]

/-- The denominator `sign + zBasis.z` of the constructor is at least 1 in absolute value. -/
theorem copysign_add_abs_ge [LinearOrderedField K] (z : K) : 1 ≤ |copysign (1 : K) z + z| := by
  rcases copysign_one_cases z with ⟨hz, hs⟩ | ⟨hz, hs⟩
  · rw [hs, abs_of_nonneg (by linarith)]
    linarith
  · rw [hs, abs_of_neg (by linarith)]
    linarith

theorem copysign_add_ne_zero [LinearOrderedField K] (z : K) : copysign (1 : K) z + z ≠ 0 := by
  intro h
  have := copysign_add_abs_ge z
  rw [h, abs_zero] at this
  linarith

/-- The polynomial identities behind the basis: with `s * s = 1`, `a * (s + z) = -1` and
`(x, y, z)` of unit length, the vectors `(1 + s x x a, s b, -s x)` and `(b, s + y y a, -y)`,
`b = x y a`, are unit vectors, orthogonal to each other and to `(x, y, z)`, and their cross
product is `(x, y, z)`. -/
theorem Plane.bases_algebra [Field K] (x y z s a : K) (hs : s * s = 1) (ha : a * (s + z) = -1)
    (h : x * x + y * y + z * z = 1) :
    Vec3.dot (⟨1 + s * x * x * a, s * (x * y * a), -s * x⟩ : Vec3 K)
        ⟨1 + s * x * x * a, s * (x * y * a), -s * x⟩ = 1 ∧
    Vec3.dot (⟨x * y * a, s + y * y * a, -y⟩ : Vec3 K) ⟨x * y * a, s + y * y * a, -y⟩ = 1 ∧
    Vec3.dot (⟨1 + s * x * x * a, s * (x * y * a), -s * x⟩ : Vec3 K)
        ⟨x * y * a, s + y * y * a, -y⟩ = 0 ∧
    Vec3.dot (⟨1 + s * x * x * a, s * (x * y * a), -s * x⟩ : Vec3 K) ⟨x, y, z⟩ = 0 ∧
    Vec3.dot (⟨x * y * a, s + y * y * a, -y⟩ : Vec3 K) ⟨x, y, z⟩ = 0 ∧
    Vec3.cross (⟨1 + s * x * x * a, s * (x * y * a), -s * x⟩ : Vec3 K)
        ⟨x * y * a, s + y * y * a, -y⟩ = ⟨x, y, z⟩ := by
  refine ⟨?_, ?_, ?_, ?_, ?_, ?_⟩
  · simp only [Vec3.dot]
    linear_combination (a^2*y^2*x^2 + a^2*x^4 + (-a^2*x^2) + x^2) * hs
      + (s*a*x^2 + (-a*x^2*z) + x^2) * ha + (a^2*x^2) * h
  · simp only [Vec3.dot]
    linear_combination ((-a^2*y^2) + (1)) * hs + (s*a*y^2 + (-a*y^2*z) + y^2) * ha
      + (a^2*y^2) * h
  · simp only [Vec3.dot]
    linear_combination (a^2*y*x*z) * hs + ((-s*a*y*x*z) + s*y*x + a*y*x) * ha
      + (s*a^2*y*x) * h
  · simp only [Vec3.dot]
    linear_combination (a*x*z) * hs + ((-s*x*z) + x) * ha + (s*a*x) * h
  · simp only [Vec3.dot]
    linear_combination ((-a*y)) * hs + (s*y + (-y*z)) * ha + (a*y) * h
  · simp only [Vec3.cross, Vec3.mk.injEq]
    refine ⟨?_, ?_, ?_⟩
    · linear_combination (x) * hs
    · ring
    · linear_combination (a*x^2 + (-a)) * hs + (s + (-z)) * ha + (a) * h

/-- The basis of the constructor, with `sign` and `a` named. -/
theorem Plane.bases_eq [LinearOrderedField K] (n : Vec3 K) :
    Plane.bases n =
      (⟨1 + copysign 1 n.z * n.x * n.x * (-1 / (copysign 1 n.z + n.z)),
        copysign 1 n.z * (n.x * n.y * (-1 / (copysign 1 n.z + n.z))),
        -copysign 1 n.z * n.x⟩,
       ⟨n.x * n.y * (-1 / (copysign 1 n.z + n.z)),
        copysign 1 n.z + n.y * n.y * (-1 / (copysign 1 n.z + n.z)), -n.y⟩,
       ⟨n.x, n.y, n.z⟩) := rfl

/-- The hypotheses of `Plane.bases_algebra` hold for the `sign` and `a` of the constructor. -/
theorem Plane.sign_facts [LinearOrderedField K] (z : K) :
    copysign (1 : K) z * copysign (1 : K) z = 1 ∧
    (-1 / (copysign (1 : K) z + z)) * (copysign (1 : K) z + z) = -1 := by
  constructor
  · rcases copysign_one_cases z with ⟨_, hs⟩ | ⟨_, hs⟩ <;> rw [hs] <;> norm_num
  · exact div_mul_cancel₀ _ (copysign_add_ne_zero z)

/-- **C11.** For every unit normal `n`, the vectors `xBasis`, `yBasis` and `zBasis = n` of
the `Plane` constructor are orthonormal: each has squared length 1 and the three pairwise dot
products are 0.  For `n = (0,0,1)` the basis is `(1,0,0), (0,1,0)`, and for `n = (0,0,-1)` it is
`(1,0,0), (0,-1,0)`. -/
theorem Plane.bases_orthonormal {K : Type} [LinearOrderedField K] (normal : Vec3 K)
    (h : normal.x ^ 2 + normal.y ^ 2 + normal.z ^ 2 = 1) :
    (Plane.bases normal).2.2 = normal ∧
    Vec3.dot (Plane.bases normal).1 (Plane.bases normal).1 = 1 ∧
    Vec3.dot (Plane.bases normal).2.1 (Plane.bases normal).2.1 = 1 ∧
    Vec3.dot (Plane.bases normal).2.2 (Plane.bases normal).2.2 = 1 ∧
    Vec3.dot (Plane.bases normal).1 (Plane.bases normal).2.1 = 0 ∧
    Vec3.dot (Plane.bases normal).1 (Plane.bases normal).2.2 = 0 ∧
    Vec3.dot (Plane.bases normal).2.1 (Plane.bases normal).2.2 = 0 ∧
    Plane.bases (⟨0, 0, 1⟩ : Vec3 K) = (⟨1, 0, 0⟩, ⟨0, 1, 0⟩, ⟨0, 0, 1⟩) ∧
    Plane.bases (⟨0, 0, -1⟩ : Vec3 K) = (⟨1, 0, 0⟩, ⟨0, -1, 0⟩, ⟨0, 0, -1⟩) := by
  have hu : normal.x * normal.x + normal.y * normal.y + normal.z * normal.z = 1 := by
    rw [← h]; ring
  obtain ⟨hs, ha⟩ := Plane.sign_facts normal.z
  obtain ⟨hxx, hyy, hxy, hxz, hyz, _⟩ :=
    Plane.bases_algebra normal.x normal.y normal.z _ _ hs ha hu
  rw [Plane.bases_eq]
  refine ⟨rfl, hxx, hyy, hu, hxy, hxz, hyz, ?_, ?_⟩
  · have h1 : copysign (1 : K) 1 = 1 := by
      rcases copysign_one_cases (1 : K) with ⟨_, e⟩ | ⟨e, _⟩
      · exact e
      · linarith
    rw [Plane.bases_eq]
    simp [h1]
  · have h1 : copysign (1 : K) (-1) = -1 := by
      rcases copysign_one_cases (-1 : K) with ⟨e, _⟩ | ⟨_, e⟩
      · linarith
      · exact e
    rw [Plane.bases_eq]
    simp [h1]

/-- Witness for `Plane.bases_orthonormal`: the unit normal `(2/3, 1/3, -2/3)` over the
rationals. -/
theorem Plane.bases_orthonormal_witness :
    ((2 / 3 : ℚ) ^ 2 + (1 / 3 : ℚ) ^ 2 + (-2 / 3 : ℚ) ^ 2 = 1) ∧
    Vec3.dot (Plane.bases (⟨2 / 3, 1 / 3, -2 / 3⟩ : Vec3 ℚ)).1
      (Plane.bases (⟨2 / 3, 1 / 3, -2 / 3⟩ : Vec3 ℚ)).1 = 1 ∧
    Vec3.dot (Plane.bases (⟨2 / 3, 1 / 3, -2 / 3⟩ : Vec3 ℚ)).2.1
      (Plane.bases (⟨2 / 3, 1 / 3, -2 / 3⟩ : Vec3 ℚ)).2.1 = 1 ∧
    Vec3.dot (Plane.bases (⟨2 / 3, 1 / 3, -2 / 3⟩ : Vec3 ℚ)).1
      (Plane.bases (⟨2 / 3, 1 / 3, -2 / 3⟩ : Vec3 ℚ)).2.1 = 0 :=
  ⟨by norm_num,
    (Plane.bases_orthonormal (⟨2 / 3, 1 / 3, -2 / 3⟩ : Vec3 ℚ) (by norm_num)).2.1,
    (Plane.bases_orthonormal (⟨2 / 3, 1 / 3, -2 / 3⟩ : Vec3 ℚ) (by norm_num)).2.2.1,
    (Plane.bases_orthonormal (⟨2 / 3, 1 / 3, -2 / 3⟩ : Vec3 ℚ) (by norm_num)).2.2.2.2.1⟩

/-- The determinant `Mat4.det3` is the determinant of the upper-left `3 × 3` block. -/
theorem Mat4.det3_eq_det [CommRing K] (m : Mat4 K) :
    m.det3 = Matrix.det !![m.c0.x, m.c1.x, m.c2.x; m.c0.y, m.c1.y, m.c2.y;
      m.c0.z, m.c1.z, m.c2.z] := by
  rw [Matrix.det_fin_three]
  simp only [Matrix.of_apply, Matrix.cons_val_zero, Matrix.cons_val_one, Matrix.head_cons,
    Matrix.cons_val_two, Matrix.tail_cons]
  unfold Mat4.det3
  ring

/-- **C12.** For every unit normal `n` the basis of the constructor is right-handed,
`cross(xBasis, yBasis) = zBasis = n`; `modelMatrix` has the columns `(yBasis, 0)`,
`(zBasis, 0)`, `(xBasis, 0)`, `(origin, 1)`, so its translation column is `origin`; and the
determinant of its upper-left `3 × 3` block is `1`. -/
theorem Plane.new_right_handed {K : Type} [LinearOrderedField K] (origin normal : Vec3 K)
    (h : normal.x ^ 2 + normal.y ^ 2 + normal.z ^ 2 = 1) :
    Vec3.cross (Plane.bases normal).1 (Plane.bases normal).2.1 = (Plane.bases normal).2.2 ∧
    (Plane.bases normal).2.2 = normal ∧
    (Plane.new origin normal).modelMatrix =
      { c0 := ⟨(Plane.bases normal).2.1.x, (Plane.bases normal).2.1.y,
               (Plane.bases normal).2.1.z, 0⟩,
        c1 := ⟨(Plane.bases normal).2.2.x, (Plane.bases normal).2.2.y,
               (Plane.bases normal).2.2.z, 0⟩,
        c2 := ⟨(Plane.bases normal).1.x, (Plane.bases normal).1.y,
               (Plane.bases normal).1.z, 0⟩,
        c3 := ⟨origin.x, origin.y, origin.z, 1⟩ } ∧
    (Plane.new origin normal).modelMatrix.c3 = ⟨origin.x, origin.y, origin.z, 1⟩ ∧
    (Plane.new origin normal).modelMatrix.det3 = 1 := by
  have hu : normal.x * normal.x + normal.y * normal.y + normal.z * normal.z = 1 := by
    rw [← h]; ring
  obtain ⟨hs, ha⟩ := Plane.sign_facts normal.z
  obtain ⟨_, _, _, _, _, hcross⟩ :=
    Plane.bases_algebra normal.x normal.y normal.z _ _ hs ha hu
  have hc : Vec3.cross (Plane.bases normal).1 (Plane.bases normal).2.1
      = (Plane.bases normal).2.2 := by
    rw [Plane.bases_eq]
    exact hcross
  refine ⟨hc, rfl, rfl, rfl, ?_⟩
  have hz : (Plane.bases normal).2.2 = normal := rfl
  rw [hz] at hc
  simp only [Vec3.cross] at hc
  have e1 := congrArg Vec3.x hc
  have e2 := congrArg Vec3.y hc
  have e3 := congrArg Vec3.z hc
  simp only at e1 e2 e3
  show Mat4.det3 _ = 1
  unfold Plane.new Mat4.det3
  simp only [hz]
  linear_combination normal.x * e1 + normal.y * e2 + normal.z * e3 + hu

/-- Witness for `Plane.new_right_handed`: origin `(1, 2, 3)`, unit normal `(2/3, 1/3, -2/3)`. -/
theorem Plane.new_right_handed_witness :
    ((2 / 3 : ℚ) ^ 2 + (1 / 3 : ℚ) ^ 2 + (-2 / 3 : ℚ) ^ 2 = 1) ∧
    Vec3.cross (Plane.bases (⟨2 / 3, 1 / 3, -2 / 3⟩ : Vec3 ℚ)).1
      (Plane.bases (⟨2 / 3, 1 / 3, -2 / 3⟩ : Vec3 ℚ)).2.1
      = (Plane.bases (⟨2 / 3, 1 / 3, -2 / 3⟩ : Vec3 ℚ)).2.2 ∧
    (Plane.new (⟨1, 2, 3⟩ : Vec3 ℚ) ⟨2 / 3, 1 / 3, -2 / 3⟩).modelMatrix.c3 = ⟨1, 2, 3, 1⟩ ∧
    (Plane.new (⟨1, 2, 3⟩ : Vec3 ℚ) ⟨2 / 3, 1 / 3, -2 / 3⟩).modelMatrix.det3 = 1 :=
  ⟨by norm_num,
    (Plane.new_right_handed (⟨1, 2, 3⟩ : Vec3 ℚ) ⟨2 / 3, 1 / 3, -2 / 3⟩ (by norm_num)).1,
    (Plane.new_right_handed (⟨1, 2, 3⟩ : Vec3 ℚ) ⟨2 / 3, 1 / 3, -2 / 3⟩ (by norm_num)).2.2.2.1,
    (Plane.new_right_handed (⟨1, 2, 3⟩ : Vec3 ℚ) ⟨2 / 3, 1 / 3, -2 / 3⟩ (by norm_num)).2.2.2.2⟩

/-- **C13.** The division in the `Plane` constructor is never by zero: for every normal, with
`sign = copysign(1, zBasis.z)` (`+1` for `zBasis.z ≥ 0`, `-1` for `zBasis.z < 0`), the
denominator `sign + zBasis.z` of `a = -1 / (sign + zBasis.z)` has absolute value at least 1; it
is `2` at `zBasis.z = 1` and `-2` at `zBasis.z = -1`. -/
theorem Plane.denominator_bound {K : Type} [LinearOrderedField K] (normal : Vec3 K) :
    (Plane.bases normal).2.1.x
      = normal.x * normal.y * (-1 / (copysign 1 normal.z + normal.z)) ∧
    1 ≤ |copysign 1 normal.z + normal.z| ∧
    copysign 1 normal.z + normal.z ≠ 0 ∧
    (0 ≤ normal.z → copysign 1 normal.z = 1) ∧
    (normal.z < 0 → copysign 1 normal.z = -1) ∧
    copysign (1 : K) 1 + 1 = 2 ∧
    copysign (1 : K) (-1) + (-1) = -2 := by
  refine ⟨rfl, copysign_add_abs_ge _, copysign_add_ne_zero _, ?_, ?_, ?_, ?_⟩
  · intro hz
    rcases copysign_one_cases normal.z with ⟨_, e⟩ | ⟨e, _⟩
    · exact e
    · linarith
  · intro hz
    rcases copysign_one_cases normal.z with ⟨e, _⟩ | ⟨_, e⟩
    · linarith
    · exact e
  · rcases copysign_one_cases (1 : K) with ⟨_, e⟩ | ⟨e, _⟩
    · rw [e]; norm_num
    · linarith
  · rcases copysign_one_cases (-1 : K) with ⟨e, _⟩ | ⟨_, e⟩
    · linarith
    · rw [e]; norm_num

end PlaneLemmas

/-! ## Camera: the two representations of the orientation -/

section CameraLemmas

/-- The two-argument arctangent of a point at angle `θ ∈ (-π, π]` and radius `r > 0`. -/
theorem arg_polar (r θ : ℝ) (hr : 0 < r) (hθ : θ ∈ Set.Ioc (-Real.pi) Real.pi) :
    Complex.arg ⟨Real.cos θ * r, Real.sin θ * r⟩ = θ := by
  have e : (⟨Real.cos θ * r, Real.sin θ * r⟩ : ℂ)
      = (r : ℂ) * (Complex.cos θ + Complex.sin θ * Complex.I) := by
    apply Complex.ext
    · simp [← Complex.ofReal_cos, ← Complex.ofReal_sin, mul_comm]
    · simp [← Complex.ofReal_cos, ← Complex.ofReal_sin, mul_comm]
  rw [e, Complex.arg_mul_cos_add_sin_mul_I hr hθ]

/-- A normalized non-zero vector has unit length. -/
theorem Vec3.normalize_unit (v : Vec3 ℝ) (hv : v ≠ ⟨0, 0, 0⟩) :
    (Vec3.normalize Real.sqrt v).x * (Vec3.normalize Real.sqrt v).x
      + (Vec3.normalize Real.sqrt v).y * (Vec3.normalize Real.sqrt v).y
      + (Vec3.normalize Real.sqrt v).z * (Vec3.normalize Real.sqrt v).z = 1 := by
  have hnn : 0 ≤ Vec3.dot v v := by
    unfold Vec3.dot
    nlinarith [mul_self_nonneg v.x, mul_self_nonneg v.y, mul_self_nonneg v.z]
  have hne : Vec3.dot v v ≠ 0 := by
    intro h0
    apply hv
    unfold Vec3.dot at h0
    have sx := mul_self_nonneg v.x
    have sy := mul_self_nonneg v.y
    have sz := mul_self_nonneg v.z
    have hx : v.x = 0 := by nlinarith
    have hy : v.y = 0 := by nlinarith
    have hz : v.z = 0 := by nlinarith
    exact Vec3.ext hx hy hz
  have hL : Real.sqrt (Vec3.dot v v) ≠ 0 := by
    rw [Ne, Real.sqrt_eq_zero hnn]
    exact hne
  have hLL : Real.sqrt (Vec3.dot v v) * Real.sqrt (Vec3.dot v v) = Vec3.dot v v :=
    Real.mul_self_sqrt hnn
  simp only [Vec3.normalize, Vec3.smul]
  field_simp
  unfold Vec3.dot
  ring

/-- Going to spherical angles and back returns every unit vector, the poles included. -/
theorem Camera.spherical_of_unit (d : Vec3 ℝ) (hd : d.x * d.x + d.y * d.y + d.z * d.z = 1) :
    Camera.SphericalToWorld Real.sin Real.cos
      (Camera.WorldToSpherical Real.sqrt (fun y x => Complex.arg ⟨x, y⟩) d) = d := by
  obtain ⟨x, y, z⟩ := d
  simp only at hd
  have hr0 : 0 ≤ x * x + z * z := by nlinarith [mul_self_nonneg x, mul_self_nonneg z]
  have hrr : Real.sqrt (x * x + z * z) * Real.sqrt (x * x + z * z) = x * x + z * z :=
    Real.mul_self_sqrt hr0
  have habs1 : Complex.abs ⟨y, Real.sqrt (x * x + z * z)⟩ = 1 := by
    rw [Complex.abs_apply, Complex.normSq_apply]
    simp only [hrr]
    rw [show y * y + (x * x + z * z) = 1 by linarith, Real.sqrt_one]
  have hne1 : (⟨y, Real.sqrt (x * x + z * z)⟩ : ℂ) ≠ 0 := by
    intro h0
    rw [h0, map_zero] at habs1
    exact zero_ne_one habs1
  have habs2 : Complex.abs ⟨x, z⟩ = Real.sqrt (x * x + z * z) := by
    rw [Complex.abs_apply, Complex.normSq_apply]
  simp only [Camera.SphericalToWorld, Camera.WorldToSpherical]
  rw [Complex.sin_arg ⟨y, _⟩, Complex.cos_arg hne1, Complex.sin_arg ⟨x, z⟩, habs1, habs2]
  simp only [div_one]
  by_cases hr : Real.sqrt (x * x + z * z) = 0
  · have hxz : x * x + z * z = 0 := (Real.sqrt_eq_zero hr0).mp hr
    have hx : x = 0 := by nlinarith [mul_self_nonneg x, mul_self_nonneg z]
    have hz : z = 0 := by nlinarith [mul_self_nonneg x, mul_self_nonneg z]
    rw [hr, hx, hz]
    simp
  · have hne2 : (⟨x, z⟩ : ℂ) ≠ 0 := by
      intro h0
      apply hr
      rw [← habs2, h0, map_zero]
    rw [Complex.cos_arg hne2, habs2]
    simp only [div_mul_cancel₀ _ hr]

/-- **C14.** The camera keeps `dir = SphericalToWorld(thetaPhi)`: over the reals this holds
right after the four-argument constructor whenever `lookAt ≠ pos`, and after `rotate(r)` for
every rotation `r` and every camera state. -/
theorem Camera.dir_in_sync (pos lookAt : Vec3 ℝ) (fovy aspectRatio : ℝ) (c : Camera ℝ)
    (r : Vec2 ℝ) (h : lookAt ≠ pos) :
    (Camera.new Real.sqrt (fun y x => Complex.arg ⟨x, y⟩) pos lookAt fovy aspectRatio).dir
      = Camera.SphericalToWorld Real.sin Real.cos
          (Camera.new Real.sqrt (fun y x => Complex.arg ⟨x, y⟩) pos lookAt fovy
            aspectRatio).thetaPhi ∧
    (Camera.rotate Real.sin Real.cos c r).dir
      = Camera.SphericalToWorld Real.sin Real.cos (Camera.rotate Real.sin Real.cos c r).thetaPhi ∧
    (Camera.rotate Real.sin Real.cos c r).thetaPhi
      = ⟨c.thetaPhi.x + r.x, c.thetaPhi.y + r.y⟩ := by
  refine ⟨?_, rfl, rfl⟩
  have hv : Vec3.sub lookAt pos ≠ ⟨0, 0, 0⟩ := by
    intro h0
    apply h
    simp only [Vec3.sub, Vec3.mk.injEq] at h0
    exact Vec3.ext (by linarith [h0.1]) (by linarith [h0.2.1]) (by linarith [h0.2.2])
  show Vec3.normalize Real.sqrt (Vec3.sub lookAt pos) = _
  exact (Camera.spherical_of_unit _ (Vec3.normalize_unit _ hv)).symm

/-- Witness for `Camera.dir_in_sync`: a camera at the origin looking at `(1, 2, 3)`, and a
rotation by `(1, 1)` of a camera state that is not in sync. -/
theorem Camera.dir_in_sync_witness :
    ((⟨1, 2, 3⟩ : Vec3 ℝ) ≠ ⟨0, 0, 0⟩) ∧
    (Camera.new Real.sqrt (fun y x => Complex.arg ⟨x, y⟩) ⟨0, 0, 0⟩ ⟨1, 2, 3⟩ 1 1).dir
      = Camera.SphericalToWorld Real.sin Real.cos
          (Camera.new Real.sqrt (fun y x => Complex.arg ⟨x, y⟩) ⟨0, 0, 0⟩ ⟨1, 2, 3⟩ 1
            1).thetaPhi ∧
    (Camera.rotate Real.sin Real.cos ⟨1, 1, ⟨0, 0, 0⟩, ⟨0, 0⟩, ⟨5, 5, 5⟩, ⟨0, 1, 0⟩⟩ ⟨1, 1⟩).dir
      = Camera.SphericalToWorld Real.sin Real.cos
          (Camera.rotate Real.sin Real.cos ⟨1, 1, ⟨0, 0, 0⟩, ⟨0, 0⟩, ⟨5, 5, 5⟩, ⟨0, 1, 0⟩⟩
            ⟨1, 1⟩).thetaPhi :=
  ⟨by simp [Vec3.mk.injEq],
    (Camera.dir_in_sync ⟨0, 0, 0⟩ ⟨1, 2, 3⟩ 1 1
      ⟨1, 1, ⟨0, 0, 0⟩, ⟨0, 0⟩, ⟨5, 5, 5⟩, ⟨0, 1, 0⟩⟩ ⟨1, 1⟩ (by simp [Vec3.mk.injEq])).1,
    (Camera.dir_in_sync ⟨0, 0, 0⟩ ⟨1, 2, 3⟩ 1 1
      ⟨1, 1, ⟨0, 0, 0⟩, ⟨0, 0⟩, ⟨5, 5, 5⟩, ⟨0, 1, 0⟩⟩ ⟨1, 1⟩ (by simp [Vec3.mk.injEq])).2.1⟩

/-- **C15.** Camera angle round trip: for angles `v = (v.x, v.y)` with `0 < v.x < π` and
`-π < v.y ≤ π`, `WorldToSpherical(SphericalToWorld(v)) = v` over the reals. -/
theorem Camera.spherical_round_trip (v : Vec2 ℝ) (h1 : 0 < v.x) (h2 : v.x < Real.pi)
    (h3 : -Real.pi < v.y) (h4 : v.y ≤ Real.pi) :
    Camera.WorldToSpherical Real.sqrt (fun y x => Complex.arg ⟨x, y⟩)
      (Camera.SphericalToWorld Real.sin Real.cos v) = v := by
  obtain ⟨p, a⟩ := v
  simp only at h1 h2 h3 h4
  have hs : 0 < Real.sin p := Real.sin_pos_of_pos_of_lt_pi h1 h2
  have hphi : Complex.arg ⟨Real.cos a * Real.sin p, Real.sin a * Real.sin p⟩ = a :=
    arg_polar (Real.sin p) a hs ⟨h3, h4⟩
  have hnum : Real.sqrt (Real.cos a * Real.sin p * (Real.cos a * Real.sin p)
      + Real.sin a * Real.sin p * (Real.sin a * Real.sin p)) = Real.sin p := by
    have e : Real.cos a * Real.sin p * (Real.cos a * Real.sin p)
        + Real.sin a * Real.sin p * (Real.sin a * Real.sin p) = Real.sin p * Real.sin p := by
      have := Real.sin_sq_add_cos_sq a
      linear_combination (Real.sin p * Real.sin p) * this
    rw [e, Real.sqrt_mul_self hs.le]
  have htheta : Complex.arg ⟨Real.cos p, Real.sin p⟩ = p := by
    have := arg_polar 1 p one_pos ⟨by linarith, h2.le⟩
    simpa using this
  simp only [Camera.SphericalToWorld, Camera.WorldToSpherical]
  rw [hphi, hnum, htheta]

/-- Witness for `Camera.spherical_round_trip`: the angles `(1, 1)`. -/
theorem Camera.spherical_round_trip_witness :
    ((0 : ℝ) < 1 ∧ (1 : ℝ) < Real.pi ∧ -Real.pi < (1 : ℝ) ∧ (1 : ℝ) ≤ Real.pi) ∧
    Camera.WorldToSpherical Real.sqrt (fun y x => Complex.arg ⟨x, y⟩)
      (Camera.SphericalToWorld Real.sin Real.cos ⟨1, 1⟩) = ⟨1, 1⟩ :=
  ⟨⟨one_pos, by linarith [Real.pi_gt_three], by linarith [Real.pi_gt_three],
      by linarith [Real.pi_gt_three]⟩,
    Camera.spherical_round_trip ⟨1, 1⟩ one_pos
      (show (1 : ℝ) < Real.pi by linarith [Real.pi_gt_three])
      (show -Real.pi < (1 : ℝ) by linarith [Real.pi_gt_three])
      (show (1 : ℝ) ≤ Real.pi by linarith [Real.pi_gt_three])⟩

end CameraLemmas

end Brasstower
